import Mathlib

set_option linter.unusedVariables false
set_option linter.unusedTactic false

/-!
Shallow embedding of the GPU command submission core implemented in
src/libANGLE/renderer/vulkan/CommandProcessor.cpp: the fence recycler,
command batches, the synchronous CommandQueue submission engine and the
CommandProcessor task front-end.  Device calls (Submit, Present, fence
waits and queries) are abstracted by a DeviceEnv oracle giving each
call's result; mutations of the shared state are additionally recorded
as an event trace so that ordering claims can be stated.
-/

/-- Result codes of the device API (the subset this file distinguishes). -/
inductive VkResult where
  | success
  | notReady
  | timeout
  | suboptimalKHR
  | errorOutOfDateKHR
  | errorDeviceLost
  | errorOther
deriving DecidableEq, Repr

/-- Result type used by the translation layer (angle::Result). -/
inductive AResult where
  | Continue
  | Stop
deriving DecidableEq, Repr

/-- A serial value: a finite counter value, or the distinguished infinite
serial that forces completion (Serial::Infinite()). -/
inductive SerialM where
  | fin : Nat → SerialM
  | inf : SerialM
deriving DecidableEq, Repr

/-- Ordering on serials; the infinite serial dominates every finite one. -/
def SerialM.leB : SerialM → SerialM → Bool
  | .fin a, .fin b => a ≤ b
  | _, .inf => true
  | .inf, .fin _ => false

/-- A (index, serial) pair ordering submissions; comparisons are per-index. -/
structure QueueSerial where
  index : Nat
  serial : Nat
deriving DecidableEq, Repr

/-- A zero serial means "never submitted"; a QueueSerial is valid when its
serial component is non-zero. -/
def QueueSerial.validB (qs : QueueSerial) : Bool := qs.serial ≠ 0

/-- A resource use: the set of queue serials of every submission that still
references the resource. -/
abbrev ResourceUse := List QueueSerial

/-- Protection mode of a submission. -/
inductive ProtectionType where
  | Unprotected
  | Protected
  | InvalidEnum
deriving DecidableEq, Repr

/-- Context priority selecting the GPU queue. -/
inductive ContextPriority where
  | Low
  | Medium
  | High
deriving DecidableEq, Repr

/-- The mutexes of the submission core that the claims talk about. -/
inductive LockId where
  | submitL
  | completeL
  | releaseL
  | enqueueL
  | dequeueL
deriving DecidableEq, Repr

/-- State of a caller-owned swapchain status record. -/
structure SwapchainStatus where
  isPending : Bool
  lastPresentResult : VkResult
deriving DecidableEq, Repr

/-- Observable events recorded while the embedded code runs.  Lock events
are emitted where the source constructs or destroys a lock guard; fence
and device events where the source calls the device API; ring events
where the source mutates the rings or serial trackers. -/
inductive QEvent where
  | lockAcquire (l : LockId)
  | lockRelease (l : LockId)
  | waitFence (qs : QueueSerial) (timeoutNs : Nat)
  | fenceStatusQuery (qs : QueueSerial)
  | deviceSubmit (qs : QueueSerial)
  | exportFd (qs : QueueSerial)
  | initFenceEv (qs : QueueSerial)
  | setExternalFenceEv (qs : QueueSerial)
  | pushBatch (qs : QueueSerial)
  | advanceLastSubmitted (qs : QueueSerial)
  | setLastCompleted (qs : QueueSerial)
  | collectPrimary (qs : QueueSerial)
  | destroyPrimary (qs : QueueSerial)
  | detachFenceRecycler (qs : QueueSerial)
  | popTask
  | statusSnap (statusId : Nat) (st : SwapchainStatus)
  | devicePresent (statusId : Nat)
  | requestAsyncCleanup
  | cleanupGarbage
  | warnUnsubmittedWait
deriving DecidableEq, Repr

/-- Oracle for the device API and configuration: the result each abstract
device primitive returns, plus the bounded fence-wait timeout and the
async-cleanup feature flag. -/
structure DeviceEnv where
  submitResult : VkResult
  fenceInitResult : VkResult
  endCommandsResult : VkResult
  ensurePrimaryOk : Bool
  collectOk : Bool
  waitFenceResult : VkResult
  fenceStatusResult : VkResult
  presentResult : VkResult
  maxFenceWaitTimeNs : Nat
  asyncCleanupEnabled : Bool
deriving DecidableEq, Repr

/-- An environment in which every device call succeeds. -/
def DeviceEnv.allOk (env : DeviceEnv) : Prop :=
  env.submitResult = .success ∧ env.fenceInitResult = .success ∧
  env.endCommandsResult = .success ∧ env.ensurePrimaryOk = true ∧
  env.collectOk = true ∧ env.waitFenceResult = .success ∧
  env.fenceStatusResult = .success ∧ env.presentResult = .success

instance (env : DeviceEnv) : Decidable env.allOk := by
  unfold DeviceEnv.allOk; infer_instance

/-! ## FenceRecycler (source lines 123-145)

The inner vk::Recycler free-list lives in a header that is not part of
this repository snapshot.  Modelled from the spec: "free-list of GPU
fence handles.  Fetch pops and resets a fence; if empty, the caller
creates a new one.  Recycle returns an unsignaled fence."  The C++
Recycler fetches from the back of the list and recycles to the back. -/

/-- A fence handle with its signaled state. -/
structure Fence where
  id : Nat
  signaled : Bool
deriving DecidableEq, Repr

/-- The guarded free-list of fences (FenceRecycler::mRecycler). -/
structure FenceRecycler where
  mRecycler : List Fence
deriving DecidableEq, Repr

/-- FenceRecycler::fetch: if the free-list is non-empty, pop a fence from
the back and reset it; otherwise leave the out-fence invalid (none). -/
def FenceRecycler.fetch (r : FenceRecycler) : Option Fence × FenceRecycler :=
  match r.mRecycler.getLast? with
  | none => (none, r)
  | some f => (some { f with signaled := false }, ⟨r.mRecycler.dropLast⟩)

/-- FenceRecycler::recycle: return a fence to the back of the free-list. -/
def FenceRecycler.recycle (r : FenceRecycler) (f : Fence) : FenceRecycler :=
  ⟨r.mRecycler ++ [f]⟩

/-! ## CommandBatch (source lines 375-546)

A single submission's bookkeeping.  The primary command buffer and the
pool back-pointer are tracked by validity, the secondary buffers by
count, the internal shared fence and the external fence by presence. -/

/-- One submission's bookkeeping record. -/
structure CommandBatch where
  mQueueSerial : QueueSerial
  mProtectionType : ProtectionType
  mHasPrimaryCommands : Bool
  mHasCommandPoolAccess : Bool
  mSecondaryCount : Nat
  mFence : Bool
  mExternalFence : Bool
deriving DecidableEq, Repr

/-- The default-constructed batch (CommandBatch::CommandBatch). -/
def CommandBatch.empty : CommandBatch :=
  { mQueueSerial := ⟨0, 0⟩, mProtectionType := .InvalidEnum,
    mHasPrimaryCommands := false, mHasCommandPoolAccess := false,
    mSecondaryCount := 0, mFence := false, mExternalFence := false }

/-- CommandBatch::hasFence: an internal or an external fence is present. -/
def CommandBatch.hasFenceB (b : CommandBatch) : Bool :=
  b.mFence || b.mExternalFence

/-- The assertion inside CommandBatch::hasFence: the internal and the
external fence are never both present. -/
def CommandBatch.hasFenceAssertOk (b : CommandBatch) : Bool :=
  !(b.mExternalFence && b.mFence)

/-- Unchecked mutation of CommandBatch::setQueueSerial. -/
def CommandBatch.setQueueSerialU (b : CommandBatch) (qs : QueueSerial) : CommandBatch :=
  { b with mQueueSerial := qs }

/-- Unchecked mutation of CommandBatch::setProtectionType. -/
def CommandBatch.setProtectionTypeU (b : CommandBatch) (pt : ProtectionType) : CommandBatch :=
  { b with mProtectionType := pt }

/-- Unchecked mutation of CommandBatch::setPrimaryCommands. -/
def CommandBatch.setPrimaryCommandsU (b : CommandBatch) (valid poolSet : Bool) : CommandBatch :=
  { b with mHasPrimaryCommands := valid, mHasCommandPoolAccess := poolSet }

/-- Unchecked mutation of CommandBatch::setSecondaryCommands. -/
def CommandBatch.setSecondaryCommandsU (b : CommandBatch) (n : Nat) : CommandBatch :=
  { b with mSecondaryCount := n }

/-- Unchecked mutation of the success path of CommandBatch::initFence. -/
def CommandBatch.initFenceU (b : CommandBatch) : CommandBatch :=
  { b with mFence := true }

/-- Unchecked mutation of CommandBatch::setExternalFence. -/
def CommandBatch.setExternalFenceU (b : CommandBatch) : CommandBatch :=
  { b with mExternalFence := true }

/-- The operations a CommandBatch accepts between construction and
release/destroy, with the data each one carries.  initFence carries
whether fence creation succeeded at the device. -/
inductive BatchOp where
  | setQueueSerial (qs : QueueSerial)
  | setProtectionType (pt : ProtectionType)
  | setPrimaryCommands (valid poolSet : Bool)
  | setSecondaryCommands (n : Nat)
  | initFence (initOk : Bool)
  | setExternalFence
deriving DecidableEq, Repr

/-- One batch operation with its ASSERT preconditions modelled as guards:
the operation is refused (none) exactly when the source assertion would
fire.  Mirrors CommandBatch::setQueueSerial (serial valid and not yet
set), setProtectionType (not InvalidEnum, not yet set),
setPrimaryCommands (valid buffer implies pool pointer; not yet set),
setSecondaryCommands (collection still empty), initFence (no fence of
either kind yet; on device failure the batch is left unchanged) and
setExternalFence (no fence of either kind yet). -/
def CommandBatch.applyOp (b : CommandBatch) : BatchOp → Option CommandBatch
  | .setQueueSerial qs =>
      if qs.validB && !b.mQueueSerial.validB then some (b.setQueueSerialU qs) else none
  | .setProtectionType pt =>
      if pt ≠ .InvalidEnum && b.mProtectionType = .InvalidEnum then
        some (b.setProtectionTypeU pt)
      else none
  | .setPrimaryCommands valid poolSet =>
      if !(valid && !poolSet) && !b.mHasPrimaryCommands && !b.mHasCommandPoolAccess then
        some (b.setPrimaryCommandsU valid poolSet)
      else none
  | .setSecondaryCommands n =>
      if b.mSecondaryCount = 0 then some (b.setSecondaryCommandsU n) else none
  | .initFence initOk =>
      if b.hasFenceB then none
      else some (if initOk then b.initFenceU else b)
  | .setExternalFence =>
      if b.hasFenceB then none else some b.setExternalFenceU

/-- A sequence of batch operations applied to the default batch. -/
def CommandBatch.applyOps (ops : List BatchOp) : Option CommandBatch :=
  ops.foldl (fun ob op => ob.bind (fun b => b.applyOp op)) (some CommandBatch.empty)


/-! ## CommandPoolAccess (source lines 1076-1208)

Thread-safe broker owning the per-(priority, protection) CommandsState:
an in-progress primary command buffer, the secondary buffers recorded
into it, and the accumulated wait semaphores with their stage masks. -/

/-- Per-(priority, protection) command accumulation state. -/
structure CommandsState where
  primaryValid : Bool
  secondaryCount : Nat
  waitSemaphores : List Nat
  waitSemaphoreStageMasks : List Nat
deriving DecidableEq, Repr

/-- The empty accumulation state. -/
def CommandsState.empty : CommandsState :=
  { primaryValid := false, secondaryCount := 0,
    waitSemaphores := [], waitSemaphoreStageMasks := [] }

/-- The broker state: one CommandsState per (priority, protection).  The
primary command pools themselves are kept abstract; pool interactions
appear as collectPrimary / destroyPrimary events. -/
structure CommandPoolAccess where
  mCommandsStateMap : ContextPriority → ProtectionType → CommandsState

/-- Update of one CommandsState slot of the broker. -/
def CommandPoolAccess.setState (pa : CommandPoolAccess) (prio : ContextPriority)
    (pt : ProtectionType) (cs : CommandsState) : CommandPoolAccess :=
  ⟨fun p t => if p = prio ∧ t = pt then cs else pa.mCommandsStateMap p t⟩

/-- CommandPoolAccess::flushWaitSemaphores: append the semaphores and
stage masks onto the target state; inputs are consumed. -/
def CommandPoolAccess.flushWaitSemaphores (pa : CommandPoolAccess)
    (pt : ProtectionType) (prio : ContextPriority)
    (waitSemaphores : List Nat) (waitSemaphoreStageMasks : List Nat) : CommandPoolAccess :=
  let cs := pa.mCommandsStateMap prio pt
  pa.setState prio pt
    { cs with
      waitSemaphores := cs.waitSemaphores ++ waitSemaphores,
      waitSemaphoreStageMasks := cs.waitSemaphoreStageMasks ++ waitSemaphoreStageMasks }

/-- Modelled from the spec: ensurePrimaryCommandBufferValidLocked lives in
a header outside this snapshot; it "Ensures the target state has a valid
primary" by allocating and beginning one, which can fail at the device
(gated here by DeviceEnv.ensurePrimaryOk). -/
def CommandPoolAccess.ensurePrimaryCommandBufferValidLocked (env : DeviceEnv)
    (pa : CommandPoolAccess) (pt : ProtectionType) (prio : ContextPriority) :
    Option VkResult × CommandPoolAccess :=
  let cs := pa.mCommandsStateMap prio pt
  if cs.primaryValid then (none, pa)
  else if env.ensurePrimaryOk then
    (none, pa.setState prio pt { cs with primaryValid := true })
  else (some .errorOther, pa)

/-- CommandPoolAccess::flushOutsideRPCommands: ensure a valid primary,
then flush the helper's recorded contents into it (the helper's
secondary buffer joins the state's collection). -/
def CommandPoolAccess.flushOutsideRPCommands (env : DeviceEnv) (pa : CommandPoolAccess)
    (pt : ProtectionType) (prio : ContextPriority) :
    Option VkResult × CommandPoolAccess :=
  match pa.ensurePrimaryCommandBufferValidLocked env pt prio with
  | (some e, pa1) => (some e, pa1)
  | (none, pa1) =>
      let cs := pa1.mCommandsStateMap prio pt
      (none, pa1.setState prio pt { cs with secondaryCount := cs.secondaryCount + 1 })

/-- CommandPoolAccess::flushRenderPassCommands: as flushOutsideRPCommands
but wrapping a render-pass scope (the scope itself is not observable in
this model). -/
def CommandPoolAccess.flushRenderPassCommands (env : DeviceEnv) (pa : CommandPoolAccess)
    (pt : ProtectionType) (prio : ContextPriority) :
    Option VkResult × CommandPoolAccess :=
  pa.flushOutsideRPCommands env pt prio

/-- CommandPoolAccess::getCommandsAndWaitSemaphores: end the current
primary buffer (device call that can fail), hand the batch the primary
buffer with the broker back-pointer plus the secondary collection, and
move the wait semaphores out; the state is reset. -/
def CommandPoolAccess.getCommandsAndWaitSemaphores (env : DeviceEnv)
    (pa : CommandPoolAccess) (pt : ProtectionType) (prio : ContextPriority)
    (batch : CommandBatch) :
    Option VkResult × CommandPoolAccess × CommandBatch × List Nat × List Nat :=
  let cs := pa.mCommandsStateMap prio pt
  if cs.primaryValid && env.endCommandsResult ≠ .success then
    (some env.endCommandsResult, pa, batch, [], [])
  else
    let batch1 := (batch.setPrimaryCommandsU cs.primaryValid true).setSecondaryCommandsU
      cs.secondaryCount
    (none, pa.setState prio pt CommandsState.empty, batch1,
      cs.waitSemaphores, cs.waitSemaphoreStageMasks)

/-! ## CommandQueue state (source lines 1210-1806)

The in-flight and finished rings are lists (front first), their bounded
capacities are fields (the numeric kInFlightCommandsLimit and
kMaxFinishedCommandsLimit constants live in the missing header; the spec
only requires that the capacities leave room, which the theorems take as
hypotheses).  The serial trackers are index-addressed arrays. -/

/-- The synchronous submission engine's state. -/
structure CommandQueue where
  mInFlightCommands : List CommandBatch
  mInFlightCap : Nat
  mFinishedCommandBatches : List CommandBatch
  mFinishedCap : Nat
  mNumAllCommands : Nat
  mLastSubmittedSerials : Nat → SerialM
  mLastCompletedSerials : Nat → SerialM
  mCommandPoolAccess : CommandPoolAccess
  mCommandQueueSubmitCalls : Nat
  mVkQueueSubmitCalls : Nat

/-- Modelled from the spec: AtomicQueueSerialFixedArray::setQueueSerial
(missing header) stores the serial at its index. -/
def setSerialAt (arr : Nat → SerialM) (qs : QueueSerial) : Nat → SerialM :=
  fun i => if i = qs.index then .fin qs.serial else arr i

/-- Modelled from the spec: a resource use is submitted when each of its
component serials is at most the last-submitted serial of its index. -/
def CommandQueue.hasResourceUseSubmitted (q : CommandQueue) (use : ResourceUse) : Bool :=
  use.all (fun qs => SerialM.leB (.fin qs.serial) (q.mLastSubmittedSerials qs.index))

/-- Modelled from the spec: a resource use is finished when each of its
component serials is at most the last-completed serial of its index. -/
def CommandQueue.hasResourceUseFinished (q : CommandQueue) (use : ResourceUse) : Bool :=
  use.all (fun qs => SerialM.leB (.fin qs.serial) (q.mLastCompletedSerials qs.index))

/-- CommandQueue::pushInFlightBatchLocked: increment mNumAllCommands,
then push the batch onto the in-flight ring. -/
def CommandQueue.pushInFlightBatchLocked (q : CommandQueue) (b : CommandBatch) : CommandQueue :=
  { q with mNumAllCommands := q.mNumAllCommands + 1,
           mInFlightCommands := q.mInFlightCommands ++ [b] }

/-- CommandQueue::moveInFlightBatchToFinishedQueueLocked: move the front
in-flight batch to the finished ring; mNumAllCommands is unchanged. -/
def CommandQueue.moveInFlightBatchToFinishedQueueLocked (q : CommandQueue) : CommandQueue :=
  match q.mInFlightCommands with
  | [] => q
  | b :: rest =>
      { q with mInFlightCommands := rest,
               mFinishedCommandBatches := q.mFinishedCommandBatches ++ [b] }

/-- CommandQueue::popFinishedBatchLocked: pop the front finished batch
and decrement mNumAllCommands. -/
def CommandQueue.popFinishedBatchLocked (q : CommandQueue) : CommandQueue :=
  { q with mFinishedCommandBatches := q.mFinishedCommandBatches.tail,
           mNumAllCommands := q.mNumAllCommands - 1 }

/-- CommandQueue::popInFlightBatchLocked: pop the front in-flight batch
and decrement mNumAllCommands. -/
def CommandQueue.popInFlightBatchLocked (q : CommandQueue) : CommandQueue :=
  { q with mInFlightCommands := q.mInFlightCommands.tail,
           mNumAllCommands := q.mNumAllCommands - 1 }

/-- CommandQueue::onCommandBatchFinishedLocked: record the batch's serial
as completed, then migrate the batch to the finished ring.  Returns the
state snapshots after each mutation for observers. -/
def CommandQueue.onCommandBatchFinishedLocked (q : CommandQueue) (b : CommandBatch) :
    CommandQueue × List CommandQueue × List QEvent :=
  let q1 := { q with mLastCompletedSerials := setSerialAt q.mLastCompletedSerials b.mQueueSerial }
  let q2 := q1.moveInFlightBatchToFinishedQueueLocked
  (q2, [q1, q2], [.setLastCompleted b.mQueueSerial])

/-- Result of a CommandQueue step: an error code when a device call
failed (none means Continue), the resulting state (partial on failure),
the state snapshots after each mutation, and the event trace. -/
structure QStepRes where
  err : Option VkResult
  st : CommandQueue
  states : List CommandQueue
  events : List QEvent

/-- CommandQueue::checkOneCommandBatchLocked: query the front batch's
fence status; on NOT_READY leave it in flight; if the batch has no fence
or the fence signaled, mark it finished.  The Bool reports "finished". -/
def CommandQueue.checkOneCommandBatchLocked (env : DeviceEnv) (q : CommandQueue) :
    QStepRes × Bool :=
  match q.mInFlightCommands with
  | [] => (⟨none, q, [], []⟩, false)
  | b :: _ =>
      if b.hasFenceB then
        let evs := [QEvent.fenceStatusQuery b.mQueueSerial]
        match env.fenceStatusResult with
        | .notReady => (⟨none, q, [], evs⟩, false)
        | .success =>
            let r := q.onCommandBatchFinishedLocked b
            (⟨none, r.1, r.2.1, evs ++ r.2.2⟩, true)
        | e => (⟨some e, q, [], evs⟩, false)
      else
        let r := q.onCommandBatchFinishedLocked b
        (⟨none, r.1, r.2.1, r.2.2⟩, true)

/-- CommandQueue::finishOneCommandBatchLocked: wait on the front batch's
fence with the bounded timeout (when it has one), then mark it
finished. -/
def CommandQueue.finishOneCommandBatchLocked (env : DeviceEnv) (q : CommandQueue)
    (timeout : Nat) : QStepRes :=
  match q.mInFlightCommands with
  | [] => ⟨none, q, [], []⟩
  | b :: _ =>
      if b.hasFenceB then
        let evs := [QEvent.waitFence b.mQueueSerial timeout]
        if env.waitFenceResult ≠ .success then
          ⟨some env.waitFenceResult, q, [], evs⟩
        else
          let r := q.onCommandBatchFinishedLocked b
          ⟨none, r.1, r.2.1, evs ++ r.2.2⟩
      else
        let r := q.onCommandBatchFinishedLocked b
        ⟨none, r.1, r.2.1, r.2.2⟩

/-- The release path of one finished batch (CommandBatch::release):
return the primary buffer to its pool (device call that can fail) and
drop the fences.  Only the events matter for the batch itself. -/
def CommandBatch.releaseEvents (env : DeviceEnv) (b : CommandBatch) :
    Option VkResult × List QEvent :=
  if b.mHasPrimaryCommands then
    if env.collectOk then (none, [.collectPrimary b.mQueueSerial])
    else (some .errorOther, [.collectPrimary b.mQueueSerial])
  else (none, [])

/-- The loop body of CommandQueue::releaseFinishedCommandsLocked over an
explicit copy of the finished ring (kept equal to
q.mFinishedCommandBatches by the caller). -/
def CommandQueue.releaseFinishedLoop (env : DeviceEnv) :
    List CommandBatch → CommandQueue → QStepRes
  | [], q => ⟨none, q, [], []⟩
  | b :: rest, q =>
      match b.releaseEvents env with
      | (some e, evs) => ⟨some e, q, [], evs⟩
      | (none, evs) =>
          let q1 := q.popFinishedBatchLocked
          let r := CommandQueue.releaseFinishedLoop env rest q1
          ⟨r.err, r.st, q1 :: r.states, evs ++ r.events⟩

/-- CommandQueue::releaseFinishedCommandsLocked: release every finished
batch front to back, popping each. -/
def CommandQueue.releaseFinishedCommandsLocked (env : DeviceEnv) (q : CommandQueue) :
    QStepRes :=
  CommandQueue.releaseFinishedLoop env q.mFinishedCommandBatches q

/-- CommandQueue::checkCompletedCommandsLocked: repeatedly check the
front batch until a not-ready one is found (structural on the ring). -/
def CommandQueue.checkCompletedLoop (env : DeviceEnv) :
    Nat → CommandQueue → QStepRes
  | 0, q => ⟨none, q, [], []⟩
  | n + 1, q =>
      if q.mInFlightCommands.isEmpty then ⟨none, q, [], []⟩
      else
        let rc := q.checkOneCommandBatchLocked env
        let r := rc.1
        let finished := rc.2
        match r.err with
        | some e => ⟨some e, r.st, r.states, r.events⟩
        | none =>
            if finished then
              let r2 := CommandQueue.checkCompletedLoop env n r.st
              ⟨r2.err, r2.st, r.states ++ r2.states, r.events ++ r2.events⟩
            else r

/-- CommandQueue::checkCompletedCommandsLocked. -/
def CommandQueue.checkCompletedCommandsLocked (env : DeviceEnv) (q : CommandQueue) :
    QStepRes :=
  CommandQueue.checkCompletedLoop env q.mInFlightCommands.length q

/-! ## CommandQueue submission path (source lines 1445-1625) -/

/-- Result of a submission entry point: error code on failure (the batch
is then not pushed), the final state, the state right before the push
(meaningful when pushed is true), whether the push was reached, the
state snapshots after each mutation, and the event trace. -/
structure QSubmitRes where
  err : Option VkResult
  st : CommandQueue
  prePush : CommandQueue
  pushed : Bool
  states : List CommandQueue
  events : List QEvent

/-- The tail of CommandQueue::queueSubmitLocked after the throttling
checks: optional device submit plus sync-fd export, then push the batch
onto the in-flight ring, then advance mLastSubmittedSerials. -/
def CommandQueue.queueSubmitTail (env : DeviceEnv) (q2 : CommandQueue)
    (submitInfoValid : Bool) (batch : CommandBatch) (submitQueueSerial : QueueSerial)
    (states0 : List CommandQueue) (events0 : List QEvent) : QSubmitRes :=
  let step : Option VkResult × List QEvent :=
    if submitInfoValid then
      if env.submitResult ≠ .success then
        (some env.submitResult, [QEvent.deviceSubmit submitQueueSerial])
      else if batch.mExternalFence then
        (none, [QEvent.deviceSubmit submitQueueSerial, QEvent.exportFd submitQueueSerial])
      else (none, [QEvent.deviceSubmit submitQueueSerial])
    else (none, [])
  match step with
  | (some e, evs) => ⟨some e, q2, q2, false, states0, events0 ++ evs⟩
  | (none, evs) =>
      let q3 := q2.pushInFlightBatchLocked batch
      let q4 := { q3 with
        mLastSubmittedSerials := setSerialAt q3.mLastSubmittedSerials submitQueueSerial }
      ⟨none, q4, q2, true, states0 ++ [q3, q4],
        events0 ++ evs ++ [QEvent.pushBatch submitQueueSerial,
          QEvent.advanceLastSubmitted submitQueueSerial]⟩

/-- The backpressure phase of queueSubmitLocked: if the in-flight ring
is full, take the complete lock, re-check, and finish the oldest batch
with a bounded fence wait. -/
def CommandQueue.queueSubmitPhase1 (env : DeviceEnv) (q : CommandQueue) : QStepRes :=
  if q.mInFlightCommands.length = q.mInFlightCap then
    let inner :=
      if q.mInFlightCommands.length = q.mInFlightCap then
        q.finishOneCommandBatchLocked env env.maxFenceWaitTimeNs
      else ⟨none, q, [], []⟩
    ⟨inner.err, inner.st, inner.states,
      QEvent.lockAcquire .completeL :: inner.events ++ [QEvent.lockRelease .completeL]⟩
  else ⟨none, q, [], []⟩

/-- The reclamation phase of queueSubmitLocked: if mNumAllCommands is at
the finished-ring capacity, take the release lock and reclaim every
finished batch. -/
def CommandQueue.queueSubmitPhase2 (env : DeviceEnv) (q1 : CommandQueue) : QStepRes :=
  if q1.mNumAllCommands = q1.mFinishedCap then
    let inner := q1.releaseFinishedCommandsLocked env
    ⟨inner.err, inner.st, inner.states,
      QEvent.lockAcquire .releaseL :: inner.events ++ [QEvent.lockRelease .releaseL]⟩
  else ⟨none, q1, [], []⟩

/-- CommandQueue::queueSubmitLocked: under the submit lock (held by the
caller), throttle if the in-flight ring is full by acquiring the
complete lock and finishing the oldest batch with a bounded fence wait;
reclaim finished batches under the release lock if mNumAllCommands
reached the finished-ring capacity; then device-submit (when the submit
info was initialized), push the batch, and last advance the submitted
serial. -/
def CommandQueue.queueSubmitLocked (env : DeviceEnv) (q : CommandQueue)
    (submitInfoValid : Bool) (batch : CommandBatch)
    (submitQueueSerial : QueueSerial) : QSubmitRes :=
  let p1 := q.queueSubmitPhase1 env
  match p1.err with
  | some e => ⟨some e, p1.st, p1.st, false, p1.states, p1.events⟩
  | none =>
      let p2 := CommandQueue.queueSubmitPhase2 env p1.st
      match p2.err with
      | some e =>
          ⟨some e, p2.st, p2.st, false, p1.states ++ p2.states, p1.events ++ p2.events⟩
      | none =>
          CommandQueue.queueSubmitTail env p2.st submitInfoValid batch submitQueueSerial
            (p1.states ++ p2.states) (p1.events ++ p2.events)

/-- CommandQueue::submitCommands: under the submit lock, stamp a fresh
batch with the serial and protection, pull the primary buffer, secondary
buffers and wait semaphores from the broker, decide whether the device
must actually be called (valid primary, signal semaphore, external
fence, or non-empty waits), acquire the internal or adopt the external
fence only in that case, and hand over to queueSubmitLocked. -/
def CommandQueue.submitCommands (env : DeviceEnv) (q : CommandQueue)
    (protectionType : ProtectionType) (priority : ContextPriority)
    (signalSemaphore : Nat) (externalFence : Option Nat)
    (submitQueueSerial : QueueSerial) : QSubmitRes :=
  let q0 := { q with mCommandQueueSubmitCalls := q.mCommandQueueSubmitCalls + 1 }
  let batch := (CommandBatch.empty.setQueueSerialU submitQueueSerial).setProtectionTypeU
    protectionType
  match q0.mCommandPoolAccess.getCommandsAndWaitSemaphores env protectionType priority batch with
  | (some e, _, _, _, _) =>
      ⟨some e, q0, q0, false, [], [QEvent.lockAcquire .submitL]⟩
  | (none, pa1, batch1, waitSemaphores, waitSemaphoreStageMasks) =>
      let q1 := { q0 with mCommandPoolAccess := pa1 }
      let needsQueueSubmit := batch1.mHasPrimaryCommands || signalSemaphore ≠ 0 ||
        externalFence.isSome || !waitSemaphores.isEmpty
      let fenceStep : Option VkResult × CommandBatch × List QEvent :=
        if needsQueueSubmit then
          match externalFence with
          | none =>
              if env.fenceInitResult ≠ .success then
                (some env.fenceInitResult, batch1, [])
              else (none, batch1.initFenceU, [QEvent.initFenceEv submitQueueSerial])
          | some _ =>
              (none, batch1.setExternalFenceU, [QEvent.setExternalFenceEv submitQueueSerial])
        else (none, batch1, [])
      match fenceStep with
      | (some e, _, evs) =>
          ⟨some e, q1, q1, false, [], QEvent.lockAcquire .submitL :: evs⟩
      | (none, batch2, evs) =>
          let q2 := if needsQueueSubmit then
            { q1 with mVkQueueSubmitCalls := q1.mVkQueueSubmitCalls + 1 } else q1
          let r := q2.queueSubmitLocked env needsQueueSubmit batch2 submitQueueSerial
          { r with events := QEvent.lockAcquire .submitL :: evs ++ r.events ++
              (if r.err.isNone then [QEvent.lockRelease .submitL] else []) }

/-- CommandQueue::queueSubmitOneOff: stamp the batch, always acquire an
internal fence from the recycler, build a submit info that is always
initialized, and hand over to queueSubmitLocked.  The submit policy is
not consulted here (the EnsureSubmitted wait lives in the
CommandProcessor front-end). -/
def CommandQueue.queueSubmitOneOff (env : DeviceEnv) (q : CommandQueue)
    (protectionType : ProtectionType) (priority : ContextPriority)
    (commandBufferHandle : Nat) (waitSemaphore : Nat) (waitSemaphoreStageMask : Nat)
    (submitQueueSerial : QueueSerial) : QSubmitRes :=
  let batch := (CommandBatch.empty.setQueueSerialU submitQueueSerial).setProtectionTypeU
    protectionType
  if env.fenceInitResult ≠ .success then
    ⟨some env.fenceInitResult, q, q, false, [], [QEvent.lockAcquire .submitL]⟩
  else
    let batch1 := batch.initFenceU
    let q1 := { q with mVkQueueSubmitCalls := q.mVkQueueSubmitCalls + 1 }
    let r := q1.queueSubmitLocked env true batch1 submitQueueSerial
    { r with events := QEvent.lockAcquire .submitL ::
        QEvent.initFenceEv submitQueueSerial :: r.events ++
        (if r.err.isNone then [QEvent.lockRelease .submitL] else []) }

/-! ## CommandQueue device-lost and destruction (source lines 1221-1290, 399-414) -/

/-- CommandBatch::destroy: destroy the primary buffer directly at the
device (bypassing the pool), release the secondary buffers, detach the
internal fence from its recycler before dropping it, and drop the
external fence. -/
def CommandBatch.destroyEvents (b : CommandBatch) : List QEvent :=
  (if b.mHasPrimaryCommands then [QEvent.destroyPrimary b.mQueueSerial] else []) ++
  (if b.mFence then [QEvent.detachFenceRecycler b.mQueueSerial] else [])

/-- The drain loop of CommandQueue::handleDeviceLost over the in-flight
ring: wait on each fenced batch's fence with the bounded timeout (a
DeviceLost result is accepted, only asserted), record the batch's serial
as completed, destroy the batch directly, and pop it. -/
def CommandQueue.handleDeviceLostLoop (env : DeviceEnv) :
    List CommandBatch → CommandQueue → CommandQueue × List QEvent
  | [], q => (q, [])
  | b :: rest, q =>
      let evs1 := if b.hasFenceB then [QEvent.waitFence b.mQueueSerial env.maxFenceWaitTimeNs]
        else []
      let q1 := { q with
        mLastCompletedSerials := setSerialAt q.mLastCompletedSerials b.mQueueSerial }
      let evs2 := [QEvent.setLastCompleted b.mQueueSerial] ++ b.destroyEvents
      let q2 := q1.popInFlightBatchLocked
      let r := CommandQueue.handleDeviceLostLoop env rest q2
      (r.1, evs1 ++ evs2 ++ r.2)

/-- CommandQueue::handleDeviceLost: under all three locks, drain the
in-flight ring destroying every batch. -/
def CommandQueue.handleDeviceLost (env : DeviceEnv) (q : CommandQueue) :
    CommandQueue × List QEvent :=
  let r := CommandQueue.handleDeviceLostLoop env q.mInFlightCommands q
  (r.1, [QEvent.lockAcquire .submitL, QEvent.lockAcquire .completeL,
        QEvent.lockAcquire .releaseL] ++ r.2 ++
       [QEvent.lockRelease .releaseL, QEvent.lockRelease .completeL,
        QEvent.lockRelease .submitL])

/-- CommandQueue::destroy: under all three locks, flush the device
queues, assign the infinite serial to every last-completed slot so that
all remaining garbage is freed, and tear down the broker and the
recycler. -/
def CommandQueue.destroy (q : CommandQueue) : CommandQueue × List QEvent :=
  ({ q with mLastCompletedSerials := fun _ => SerialM.inf },
   [QEvent.lockAcquire .submitL, QEvent.lockAcquire .completeL,
    QEvent.lockAcquire .releaseL, QEvent.lockRelease .releaseL,
    QEvent.lockRelease .completeL, QEvent.lockRelease .submitL])

/-! ## CommandQueue user-timeout wait (source lines 1378-1429) -/

/-- CommandBatch::waitFenceUnlocked: copy the shared fence handle, drop
the complete lock, wait, and reacquire the lock. -/
def waitFenceUnlockedEvents (qs : QueueSerial) (timeout : Nat) : List QEvent :=
  [QEvent.lockRelease .completeL, QEvent.waitFence qs timeout, QEvent.lockAcquire .completeL]

/-- The wait loop of waitForResourceUseToFinishWithUserTimeout; fuel
bounds the iterations (in the device a fence a wait succeeded on is
signaled, so the loop terminates; the oracle does not enforce that). -/
def CommandQueue.userTimeoutWaitLoop (env : DeviceEnv) (use : ResourceUse) (timeout : Nat) :
    Nat → CommandQueue → VkResult → QStepRes × VkResult
  | 0, q, res => (⟨none, q, [], []⟩, res)
  | n + 1, q, res =>
      if q.mInFlightCommands.isEmpty || q.hasResourceUseFinished use then
        (⟨none, q, [], []⟩, res)
      else
        let rc := q.checkOneCommandBatchLocked env
        let r := rc.1
        let finished := rc.2
        match r.err with
        | some e => (⟨some e, r.st, r.states, r.events⟩, res)
        | none =>
            if finished then
              let res1 : VkResult :=
                if r.st.hasResourceUseFinished use then .success else .notReady
              let rr := CommandQueue.userTimeoutWaitLoop env use timeout n r.st res1
              (⟨rr.1.err, rr.1.st, r.states ++ rr.1.states, r.events ++ rr.1.events⟩, rr.2)
            else
              match q.mInFlightCommands with
              | [] => (⟨none, q, r.states, r.events⟩, res)
              | b :: _ =>
                  let wres := env.waitFenceResult
                  let evs := r.events ++ waitFenceUnlockedEvents b.mQueueSerial timeout
                  if wres = .timeout then (⟨none, q, r.states, evs⟩, .timeout)
                  else if wres ≠ .success then (⟨some wres, q, r.states, evs⟩, wres)
                  else
                    let rr := CommandQueue.userTimeoutWaitLoop env use timeout n q wres
                    (⟨rr.1.err, rr.1.st, r.states ++ rr.1.states, evs ++ rr.1.events⟩, rr.2)

/-- CommandQueue::releaseFinishedCommands plus garbage cleanup
(releaseFinishedCommandsAndCleanupGarbage): either request async
cleanup, or release under the release lock and collect garbage now. -/
def CommandQueue.releaseFinishedCommandsAndCleanupGarbage (env : DeviceEnv)
    (q : CommandQueue) : QStepRes :=
  if env.asyncCleanupEnabled then ⟨none, q, [], [QEvent.requestAsyncCleanup]⟩
  else
    let r := q.releaseFinishedCommandsLocked env
    ⟨r.err, r.st, r.states,
      QEvent.lockAcquire .releaseL :: r.events ++
        [QEvent.lockRelease .releaseL, QEvent.cleanupGarbage]⟩

/-- CommandQueue::waitForResourceUseToFinishWithUserTimeout: waiting on a
serial that was never submitted warns and surfaces VK_TIMEOUT as the out
parameter with Continue, touching nothing; otherwise poll and wait under
the complete lock (surfacing TIMEOUT as a value, not an error), then
check the remaining commands and release what finished. -/
def CommandQueue.waitForResourceUseToFinishWithUserTimeout (env : DeviceEnv)
    (q : CommandQueue) (use : ResourceUse) (timeout : Nat) (fuel : Nat) :
    QStepRes × VkResult :=
  if !q.hasResourceUseSubmitted use then
    (⟨none, q, [], [QEvent.warnUnsubmittedWait]⟩, .timeout)
  else
    let res0 : VkResult := if q.hasResourceUseFinished use then .success else .notReady
    let rr1 := CommandQueue.userTimeoutWaitLoop env use timeout fuel q res0
    let r1 := rr1.1
    let res1 := rr1.2
    match r1.err with
    | some e =>
        (⟨some e, r1.st, r1.states,
          QEvent.lockAcquire .completeL :: r1.events⟩, res1)
    | none =>
        let r2 := r1.st.checkCompletedCommandsLocked env
        match r2.err with
        | some e =>
            (⟨some e, r2.st, r1.states ++ r2.states,
              QEvent.lockAcquire .completeL :: r1.events ++ r2.events⟩, res1)
        | none =>
            let evs0 := QEvent.lockAcquire .completeL :: r1.events ++ r2.events ++
              [QEvent.lockRelease .completeL]
            if r2.st.mFinishedCommandBatches.isEmpty then
              (⟨none, r2.st, r1.states ++ r2.states, evs0⟩, res1)
            else
              let r3 := r2.st.releaseFinishedCommandsAndCleanupGarbage env
              (⟨r3.err, r3.st, r1.states ++ r2.states ++ r3.states, evs0 ++ r3.events⟩, res1)

/-! ## CommandQueue flush wrappers

CommandQueue::flushWaitSemaphores / flushOutsideRPCommands /
flushRenderPassCommands delegate to the broker (declared in the missing
header; behaviour modelled from the spec's dispatch table in 4.5). -/

/-- CommandQueue::flushWaitSemaphores. -/
def CommandQueue.flushWaitSemaphores (q : CommandQueue) (pt : ProtectionType)
    (prio : ContextPriority) (sems : List Nat) (masks : List Nat) : CommandQueue :=
  { q with mCommandPoolAccess := q.mCommandPoolAccess.flushWaitSemaphores pt prio sems masks }

/-- CommandQueue::flushOutsideRPCommands. -/
def CommandQueue.flushOutsideRPCommands (env : DeviceEnv) (q : CommandQueue)
    (pt : ProtectionType) (prio : ContextPriority) : Option VkResult × CommandQueue :=
  match q.mCommandPoolAccess.flushOutsideRPCommands env pt prio with
  | (e, pa1) => (e, { q with mCommandPoolAccess := pa1 })

/-- CommandQueue::flushRenderPassCommands. -/
def CommandQueue.flushRenderPassCommands (env : DeviceEnv) (q : CommandQueue)
    (pt : ProtectionType) (prio : ContextPriority) : Option VkResult × CommandQueue :=
  match q.mCommandPoolAccess.flushRenderPassCommands env pt prio with
  | (e, pa1) => (e, { q with mCommandPoolAccess := pa1 })

/-- CommandQueue::queuePresent: under the submit lock, call the device
Present and store the result into the caller's swapchain status. -/
def CommandQueue.queuePresent (env : DeviceEnv) (st : SwapchainStatus) :
    SwapchainStatus × List QEvent :=
  ({ st with lastPresentResult := env.presentResult },
   [QEvent.lockAcquire .submitL, QEvent.lockRelease .submitL])

/-! ## CommandProcessor (source lines 548-1074)

The worker-thread front-end.  The task ring is a bounded list; the
swapchain status records referenced by pointer in the source live in an
id-addressed store.  Error records carry the code (the source location
strings of the source's Error struct are not modelled). -/

/-- A deferred error record on the error bus. -/
structure PError where
  errorCode : VkResult
deriving DecidableEq, Repr

/-- One unit of queued work (CommandProcessorTask), carrying exactly the
fields its handler reads. -/
inductive CommandProcessorTask where
  | flushAndQueueSubmit (signalSemaphore : Nat) (externalFence : Option Nat)
      (pt : ProtectionType) (prio : ContextPriority) (serial : QueueSerial)
  | oneOffQueueSubmit (commandBufferHandle : Nat) (pt : ProtectionType)
      (prio : ContextPriority) (waitSemaphore : Nat) (waitStageMask : Nat)
      (serial : QueueSerial)
  | present (prio : ContextPriority) (statusId : Nat)
  | flushWaitSemaphores (pt : ProtectionType) (prio : ContextPriority)
      (sems : List Nat) (masks : List Nat)
  | processOutsideRenderPassCommands (pt : ProtectionType) (prio : ContextPriority)
  | processRenderPassCommands (pt : ProtectionType) (prio : ContextPriority)
  | invalid
deriving DecidableEq, Repr

/-- The CommandProcessor state: the bounded task queue, the error bus,
the wrapped CommandQueue, the store of caller-owned swapchain statuses,
and the cleanup request flag. -/
structure CommandProcessor where
  mTaskQueue : List CommandProcessorTask
  mTaskQueueCap : Nat
  mErrors : List PError
  mCommandQueue : CommandQueue
  mSwapchainStatuses : Nat → SwapchainStatus
  mNeedCommandsAndGarbageCleanup : Bool

/-- Update of one swapchain status record in the store. -/
def CommandProcessor.setStatus (w : CommandProcessor) (statusId : Nat)
    (st : SwapchainStatus) : CommandProcessor :=
  { w with mSwapchainStatuses := fun i => if i = statusId then st else w.mSwapchainStatuses i }

/-- CommandProcessor::checkAndPopPendingError: Continue when the error
bus is empty; otherwise forward every pending record to the caller's
error handler, leaving the bus empty, and Stop.  The middle component is
the remaining bus, the right one the forwarded records in order. -/
def checkAndPopPendingError (errors : List PError) :
    AResult × List PError × List PError :=
  if errors.isEmpty then (.Continue, errors, [])
  else (.Stop, [], errors)

/-- Outcome of a CommandProcessor step: Continue with the new state,
Stop (an error was propagated) with the partial state, or fuel ran out
(never hit by the theorems below). -/
inductive PStep where
  | ok (w : CommandProcessor)
  | stop (w : CommandProcessor)
  | outOfFuel

/-- CommandProcessor::present (the worker side): call queuePresent,
read the result, then clear isPending — the status must not be touched
after that.  Status snapshots are emitted after each mutation so the
ordering is observable. -/
def CommandProcessor.presentImpl (env : DeviceEnv) (w : CommandProcessor)
    (statusId : Nat) : CommandProcessor × VkResult × List QEvent :=
  let st0 := w.mSwapchainStatuses statusId
  let rq := CommandQueue.queuePresent env st0
  let st1 := rq.1
  let w1 := w.setStatus statusId st1
  let result := st1.lastPresentResult
  let st2 := { st1 with isPending := false }
  let w2 := w1.setStatus statusId st2
  (w2, result,
    QEvent.devicePresent statusId :: rq.2 ++
    [QEvent.statusSnap statusId st1, QEvent.statusSnap statusId st2])

mutual

/-- CommandProcessor::processTask: dispatch one task to the matching
CommandQueue operation.  A device error was already pushed onto the
error bus by handleError at the raise point; Stop then propagates,
except for Present whose errors are never fatal to the worker loop. -/
def CommandProcessor.processTask : Nat → DeviceEnv → CommandProcessor →
    CommandProcessorTask → PStep × List QEvent
  | 0, _, _, _ => (.outOfFuel, [])
  | n + 1, env, w, t =>
      match t with
      | .flushAndQueueSubmit signalSemaphore externalFence pt prio serial =>
          let r := w.mCommandQueue.submitCommands env pt prio signalSemaphore
            externalFence serial
          let w1 := { w with mCommandQueue := r.st }
          match r.err with
          | some e =>
              let rh := CommandProcessor.handleError n env w1 e
              (.stop rh.1, r.events ++ rh.2)
          | none =>
              (.ok { w1 with mNeedCommandsAndGarbageCleanup := true }, r.events)
      | .oneOffQueueSubmit commandBufferHandle pt prio waitSemaphore waitStageMask serial =>
          let r := w.mCommandQueue.queueSubmitOneOff env pt prio commandBufferHandle
            waitSemaphore waitStageMask serial
          let w1 := { w with mCommandQueue := r.st }
          match r.err with
          | some e =>
              let rh := CommandProcessor.handleError n env w1 e
              (.stop rh.1, r.events ++ rh.2)
          | none =>
              (.ok { w1 with mNeedCommandsAndGarbageCleanup := true }, r.events)
      | .present prio statusId =>
          let rp := w.presentImpl env statusId
          let result := rp.2.1
          if result ≠ .errorOutOfDateKHR ∧ result ≠ .suboptimalKHR ∧ result ≠ .success then
            let rh := CommandProcessor.handleError n env rp.1 result
            (.ok rh.1, rp.2.2 ++ rh.2)
          else (.ok rp.1, rp.2.2)
      | .flushWaitSemaphores pt prio sems masks =>
          (.ok { w with
            mCommandQueue := w.mCommandQueue.flushWaitSemaphores pt prio sems masks }, [])
      | .processOutsideRenderPassCommands pt prio =>
          match CommandQueue.flushOutsideRPCommands env w.mCommandQueue pt prio with
          | (some e, q1) =>
              let rh := CommandProcessor.handleError n env
                { w with mCommandQueue := q1 } e
              (.stop rh.1, rh.2)
          | (none, q1) => (.ok { w with mCommandQueue := q1 }, [])
      | .processRenderPassCommands pt prio =>
          match CommandQueue.flushRenderPassCommands env w.mCommandQueue pt prio with
          | (some e, q1) =>
              let rh := CommandProcessor.handleError n env
                { w with mCommandQueue := q1 } e
              (.stop rh.1, rh.2)
          | (none, q1) => (.ok { w with mCommandQueue := q1 }, [])
      | .invalid => (.ok w, [])

/-- CommandProcessor::handleError: on DeviceLost first drain all queued
work and tear down the in-flight ring, then push the error record onto
the bus. -/
def CommandProcessor.handleError : Nat → DeviceEnv → CommandProcessor → VkResult →
    CommandProcessor × List QEvent
  | 0, _, w, e => ({ w with mErrors := w.mErrors ++ [⟨e⟩] }, [])
  | n + 1, env, w, e =>
      if e = .errorDeviceLost then
        let rd := CommandProcessor.handleDeviceLostFront n env w
        ({ rd.1 with mErrors := rd.1.mErrors ++ [⟨e⟩] }, rd.2)
      else ({ w with mErrors := w.mErrors ++ [⟨e⟩] }, [])

/-- CommandProcessor::handleDeviceLost: take the enqueue lock, drain all
queued work, then let the CommandQueue destroy the in-flight batches. -/
def CommandProcessor.handleDeviceLostFront : Nat → DeviceEnv → CommandProcessor →
    CommandProcessor × List QEvent
  | 0, _, w => (w, [])
  | n + 1, env, w =>
      let rw := CommandProcessor.waitForAllWorkToBeSubmitted n env w
      let w1 := match rw.1 with
        | .ok w1 => w1
        | .stop w1 => w1
        | .outOfFuel => w
      let rd := w1.mCommandQueue.handleDeviceLost env
      ({ w1 with mCommandQueue := rd.1 },
        QEvent.lockAcquire .enqueueL :: rw.2 ++ rd.2 ++ [QEvent.lockRelease .enqueueL])

/-- CommandProcessor::waitForAllWorkToBeSubmitted: under both task-queue
locks, sync pending errors to the calling context, process every queued
task to completion, then reclaim if async cleanup is enabled. -/
def CommandProcessor.waitForAllWorkToBeSubmitted : Nat → DeviceEnv → CommandProcessor →
    PStep × List QEvent
  | 0, _, _ => (.outOfFuel, [])
  | n + 1, env, w =>
      let evs0 := [QEvent.lockAcquire .enqueueL, QEvent.lockAcquire .dequeueL]
      match checkAndPopPendingError w.mErrors with
      | (.Stop, errs, _) => (.stop { w with mErrors := errs }, evs0)
      | (_, errs, _) =>
          let w1 := { w with mErrors := errs }
          match CommandProcessor.drainTasks n env w1 with
          | (.ok w2, evs) =>
              let cleanup : PStep × List QEvent :=
                if env.asyncCleanupEnabled then
                  let r := w2.mCommandQueue.releaseFinishedCommandsLocked env
                  match r.err with
                  | some _ =>
                      (.stop { w2 with mCommandQueue := r.st },
                        QEvent.lockAcquire .releaseL :: r.events)
                  | none =>
                      let w3 := { w2 with mCommandQueue := r.st }
                      (.ok { w3 with mNeedCommandsAndGarbageCleanup := false },
                        QEvent.lockAcquire .releaseL :: r.events ++
                          [QEvent.lockRelease .releaseL, QEvent.cleanupGarbage])
                else (.ok { w2 with mNeedCommandsAndGarbageCleanup := false }, [])
              (cleanup.1, evs0 ++ evs ++ cleanup.2 ++
                [QEvent.lockRelease .dequeueL, QEvent.lockRelease .enqueueL])
          | (r, evs) => (r, evs0 ++ evs)

/-- The drain loop inside waitForAllWorkToBeSubmitted: pop and process
until the task queue is empty. -/
def CommandProcessor.drainTasks : Nat → DeviceEnv → CommandProcessor →
    PStep × List QEvent
  | 0, _, _ => (.outOfFuel, [])
  | n + 1, env, w =>
      match w.mTaskQueue with
      | [] => (.ok w, [])
      | t :: ts =>
          let w1 := { w with mTaskQueue := ts }
          match CommandProcessor.processTask n env w1 t with
          | (.ok w2, evs) =>
              let rr := CommandProcessor.drainTasks n env w2
              (rr.1, QEvent.popTask :: evs ++ rr.2)
          | (r, evs) => (r, QEvent.popTask :: evs)

end

/-- CommandProcessor::queueCommand: take the enqueue lock; if the task
ring is full, take the dequeue lock, re-check, and execute one task
synchronously from the caller's thread; then push the new task and
signal the worker. -/
def CommandProcessor.queueCommand (fuel : Nat) (env : DeviceEnv) (w : CommandProcessor)
    (task : CommandProcessorTask) : PStep × List QEvent :=
  let push := fun (w1 : CommandProcessor) (evs : List QEvent) =>
    (PStep.ok { w1 with mTaskQueue := w1.mTaskQueue ++ [task] },
      QEvent.lockAcquire .enqueueL :: evs ++ [QEvent.lockRelease .enqueueL])
  if w.mTaskQueue.length = w.mTaskQueueCap then
    match w.mTaskQueue with
    | [] => push w []
    | t :: ts =>
        let w1 := { w with mTaskQueue := ts }
        match CommandProcessor.processTask fuel env w1 t with
        | (.ok w2, evs) =>
            push w2 (QEvent.lockAcquire .dequeueL :: QEvent.popTask :: evs ++
              [QEvent.lockRelease .dequeueL])
        | (r, evs) =>
            (r, QEvent.lockAcquire .enqueueL :: QEvent.lockAcquire .dequeueL ::
              QEvent.popTask :: evs)
  else push w []

/-- CommandProcessor::enqueuePresent: mark the status pending with a
provisional VK_SUCCESS result, then enqueue the Present task (the
queueCommand result is discarded by the source). -/
def CommandProcessor.enqueuePresent (fuel : Nat) (env : DeviceEnv) (w : CommandProcessor)
    (prio : ContextPriority) (statusId : Nat) : CommandProcessor × List QEvent :=
  let st := w.mSwapchainStatuses statusId
  let st1 := { st with isPending := true }
  let st2 := { st1 with lastPresentResult := VkResult.success }
  let w1 := w.setStatus statusId st2
  match CommandProcessor.queueCommand fuel env w1 (.present prio statusId) with
  | (.ok w2, evs) => (w2, evs)
  | (.stop w2, evs) => (w2, evs)
  | (.outOfFuel, evs) => (w1, evs)

/-- The drive loop of waitForResourceUseToBeSubmitted: while fewer than
maxTaskCount tasks were executed and the use is not observed submitted,
pop the front task and execute it on the calling thread.  Returns the
outcome, the number of tasks executed, the states observed right before
each pop, and the events. -/
def CommandProcessor.driveLoop (env : DeviceEnv) (use : ResourceUse) (fuel : Nat) :
    Nat → CommandProcessor → PStep × Nat × List CommandProcessor × List QEvent
  | 0, w => (.ok w, 0, [], [])
  | n + 1, w =>
      if w.mCommandQueue.hasResourceUseSubmitted use then (.ok w, 0, [], [])
      else
        match w.mTaskQueue with
        | [] => (.ok w, 0, [], [])
        | t :: ts =>
            let w1 := { w with mTaskQueue := ts }
            match CommandProcessor.processTask fuel env w1 t with
            | (.ok w2, evs) =>
                let rr := CommandProcessor.driveLoop env use fuel n w2
                (rr.1, rr.2.1 + 1, w :: rr.2.2.1, QEvent.popTask :: evs ++ rr.2.2.2)
            | (r, evs) => (r, 1, [w], QEvent.popTask :: evs)

/-- CommandProcessor::waitForResourceUseToBeSubmitted: when the use is
already observed submitted only sync pending errors; otherwise, under
the dequeue lock (the enqueue lock is not taken so other contexts can
still enqueue), sync pending errors and then pop and execute tasks from
the queue on the calling thread — at most as many as the queue held at
entry — until the use is observed submitted. -/
def CommandProcessor.waitForResourceUseToBeSubmitted (fuel : Nat) (env : DeviceEnv)
    (w : CommandProcessor) (use : ResourceUse) :
    PStep × Nat × List CommandProcessor × List QEvent :=
  if w.mCommandQueue.hasResourceUseSubmitted use then
    match checkAndPopPendingError w.mErrors with
    | (.Stop, errs, _) => (.stop { w with mErrors := errs }, 0, [], [])
    | (_, errs, _) => (.ok { w with mErrors := errs }, 0, [], [])
  else
    match checkAndPopPendingError w.mErrors with
    | (.Stop, errs, _) =>
        (.stop { w with mErrors := errs }, 0, [], [QEvent.lockAcquire .dequeueL])
    | (_, errs, _) =>
        let w1 := { w with mErrors := errs }
        let maxTaskCount := w1.mTaskQueue.length
        let rr := CommandProcessor.driveLoop env use fuel maxTaskCount w1
        (rr.1, rr.2.1, rr.2.2.1,
          QEvent.lockAcquire .dequeueL :: rr.2.2.2 ++ [QEvent.lockRelease .dequeueL])

/-! ## Trace predicates and concrete fixtures -/

/-- Scan helper: has a release of the submit lock been seen when the
first fence wait is reached? -/
def droppedScan (flag : Bool) : List QEvent → Bool
  | [] => false
  | QEvent.lockRelease .submitL :: rest => droppedScan true rest
  | QEvent.waitFence _ _ :: _ => flag
  | _ :: rest => droppedScan flag rest

/-- Whether an event trace shows the submit lock being dropped before
the first fence wait. -/
def submitDroppedBeforeWait (evs : List QEvent) : Bool :=
  droppedScan false evs

/-- Whether an event trace contains a fence wait. -/
def containsWaitFence (evs : List QEvent) : Bool :=
  evs.any (fun e => match e with | QEvent.waitFence _ _ => true | _ => false)

/-- A broker with every accumulation state empty. -/
def emptyPoolAccess : CommandPoolAccess := ⟨fun _ _ => CommandsState.empty⟩

/-- An environment where every device call succeeds. -/
def okEnv : DeviceEnv :=
  { submitResult := .success, fenceInitResult := .success,
    endCommandsResult := .success, ensurePrimaryOk := true, collectOk := true,
    waitFenceResult := .success, fenceStatusResult := .success,
    presentResult := .success, maxFenceWaitTimeNs := 1000000, asyncCleanupEnabled := false }

/-- An environment where the device is lost: fence waits report
VK_ERROR_DEVICE_LOST. -/
def lostEnv : DeviceEnv :=
  { okEnv with waitFenceResult := .errorDeviceLost, submitResult := .errorDeviceLost }

/-- A concrete fenced batch with serial (0, 1) and a primary buffer. -/
def sampleBatch1 : CommandBatch :=
  { mQueueSerial := ⟨0, 1⟩, mProtectionType := .Unprotected,
    mHasPrimaryCommands := true, mHasCommandPoolAccess := true,
    mSecondaryCount := 0, mFence := true, mExternalFence := false }

/-- A concrete fenced batch with serial (0, 2) and no primary buffer. -/
def sampleBatch2 : CommandBatch :=
  { mQueueSerial := ⟨0, 2⟩, mProtectionType := .Unprotected,
    mHasPrimaryCommands := false, mHasCommandPoolAccess := false,
    mSecondaryCount := 0, mFence := true, mExternalFence := false }

/-- An idle queue with empty rings. -/
def sampleQueue : CommandQueue :=
  { mInFlightCommands := [], mInFlightCap := 2, mFinishedCommandBatches := [],
    mFinishedCap := 3, mNumAllCommands := 0,
    mLastSubmittedSerials := fun _ => .fin 0, mLastCompletedSerials := fun _ => .fin 0,
    mCommandPoolAccess := emptyPoolAccess,
    mCommandQueueSubmitCalls := 0, mVkQueueSubmitCalls := 0 }

/-- A queue whose in-flight ring is full (capacity 1). -/
def fullQueue : CommandQueue :=
  { mInFlightCommands := [sampleBatch1], mInFlightCap := 1,
    mFinishedCommandBatches := [], mFinishedCap := 3, mNumAllCommands := 1,
    mLastSubmittedSerials := fun _ => .fin 1, mLastCompletedSerials := fun _ => .fin 0,
    mCommandPoolAccess := emptyPoolAccess,
    mCommandQueueSubmitCalls := 1, mVkQueueSubmitCalls := 1 }

/-- A queue holding the two sample batches in flight. -/
def busyQueue : CommandQueue :=
  { fullQueue with mInFlightCommands := [sampleBatch1, sampleBatch2],
                   mInFlightCap := 4, mNumAllCommands := 2 }

/-- An idle processor wrapping sampleQueue, with one status record. -/
def sampleProcessor : CommandProcessor :=
  { mTaskQueue := [], mTaskQueueCap := 4, mErrors := [],
    mCommandQueue := sampleQueue,
    mSwapchainStatuses := fun _ => ⟨false, .success⟩,
    mNeedCommandsAndGarbageCleanup := false }

/-! ## Theorems -/

/-- C9: for every recycler state, FenceRecycler.fetch followed by
FenceRecycler.recycle of the fetched fence leaves the free-list size
unchanged; when the list was empty, fetch yields no fence and the size
is likewise unchanged. -/
theorem fenceRecycler_fetch_recycle_size (r : FenceRecycler) :
    (∀ f r', r.fetch = (some f, r') →
      (r'.recycle f).mRecycler.length = r.mRecycler.length) ∧
    (∀ r', r.fetch = (none, r') → r'.mRecycler.length = r.mRecycler.length) := by
  constructor
  · intro f r' h
    unfold FenceRecycler.fetch at h
    match hl : r.mRecycler.getLast? with
    | none => rw [hl] at h; exact absurd h (by simp)
    | some g =>
        rw [hl] at h
        have hr' : r' = ⟨r.mRecycler.dropLast⟩ := by
          have h2 := congrArg Prod.snd h; exact h2.symm
        subst hr'
        have hne : r.mRecycler ≠ [] := by
          intro hnil; rw [hnil] at hl; simp [List.getLast?] at hl
        have hdl : r.mRecycler.dropLast.length = r.mRecycler.length - 1 :=
          List.length_dropLast r.mRecycler
        have hpos : 0 < r.mRecycler.length := List.length_pos.mpr hne
        simp only [FenceRecycler.recycle, List.length_append, List.length_cons,
          List.length_nil, hdl]
        omega
  · intro r' h
    unfold FenceRecycler.fetch at h
    match hl : r.mRecycler.getLast? with
    | none =>
        rw [hl] at h
        have hr' : r' = r := by
          have h2 := congrArg Prod.snd h; exact h2.symm
        rw [hr']
    | some g => rw [hl] at h; exact absurd h (by simp)

/-- Witness for C9 at a one-element free-list. -/
theorem fenceRecycler_fetch_recycle_size_witness :
    (FenceRecycler.fetch ⟨[⟨5, true⟩]⟩ = (some ⟨5, false⟩, ⟨[]⟩)) ∧
    ((FenceRecycler.recycle ⟨[]⟩ ⟨5, false⟩).mRecycler.length =
      (FenceRecycler.mk [⟨5, true⟩]).mRecycler.length) := by
  refine ⟨by decide, ?_⟩
  exact (fenceRecycler_fetch_recycle_size ⟨[⟨5, true⟩]⟩).1 ⟨5, false⟩ ⟨[]⟩ (by decide)

/-- C6: checkAndPopPendingError returns Continue on an empty error bus
leaving it empty; with pending errors it forwards every record, empties
the bus, returns Stop, and a subsequent call with no new errors returns
Continue. -/
theorem checkAndPopPendingError_spec (errors : List PError) :
    (errors = [] → checkAndPopPendingError errors = (.Continue, [], [])) ∧
    (errors ≠ [] →
      (checkAndPopPendingError errors).1 = .Stop ∧
      (checkAndPopPendingError errors).2.1 = [] ∧
      (checkAndPopPendingError errors).2.2 = errors ∧
      checkAndPopPendingError (checkAndPopPendingError errors).2.1 =
        (.Continue, [], [])) := by
  constructor
  · intro h; subst h; rfl
  · intro h
    unfold checkAndPopPendingError
    simp [h]

/-- Witness for C6 at a one-error bus and the empty bus. -/
theorem checkAndPopPendingError_spec_witness :
    (checkAndPopPendingError [] = (.Continue, [], [])) ∧
    ((checkAndPopPendingError [⟨.errorOther⟩]).1 = .Stop ∧
      (checkAndPopPendingError [⟨.errorOther⟩]).2.2 = [⟨.errorOther⟩] ∧
      checkAndPopPendingError (checkAndPopPendingError [⟨.errorOther⟩]).2.1 =
        (.Continue, [], [])) := by
  have h1 := (checkAndPopPendingError_spec []).1 rfl
  have h2 := (checkAndPopPendingError_spec [⟨.errorOther⟩]).2 (by simp)
  exact ⟨h1, h2.1, h2.2.2.1, h2.2.2.2⟩

theorem applyOp_excl_aux (b b' : CommandBatch) (op : BatchOp)
    (hb : (b.mFence && b.mExternalFence) = false)
    (h : b.applyOp op = some b') : (b'.mFence && b'.mExternalFence) = false := by
  cases op with
  | setQueueSerial qs =>
      simp only [CommandBatch.applyOp] at h
      split at h
      · cases h; simpa [CommandBatch.setQueueSerialU] using hb
      · exact absurd h (by simp)
  | setProtectionType pt =>
      simp only [CommandBatch.applyOp] at h
      split at h
      · cases h; simpa [CommandBatch.setProtectionTypeU] using hb
      · exact absurd h (by simp)
  | setPrimaryCommands valid poolSet =>
      simp only [CommandBatch.applyOp] at h
      split at h
      · cases h; simpa [CommandBatch.setPrimaryCommandsU] using hb
      · exact absurd h (by simp)
  | setSecondaryCommands n =>
      simp only [CommandBatch.applyOp] at h
      split at h
      · cases h; simpa [CommandBatch.setSecondaryCommandsU] using hb
      · exact absurd h (by simp)
  | initFence initOk =>
      simp only [CommandBatch.applyOp] at h
      split at h
      · exact absurd h (by simp)
      · rename_i hf
        cases h
        have hext : b.mExternalFence = false := by
          have := hf
          simp [CommandBatch.hasFenceB] at this
          exact this.2
        cases initOk
        · simpa using hb
        · simp [CommandBatch.initFenceU, hext]
  | setExternalFence =>
      simp only [CommandBatch.applyOp] at h
      split at h
      · exact absurd h (by simp)
      · rename_i hf
        cases h
        have hfen : b.mFence = false := by
          have := hf
          simp [CommandBatch.hasFenceB] at this
          exact this.1
        simp [CommandBatch.setExternalFenceU, hfen]

theorem applyOps_excl_aux : ∀ (ops : List BatchOp) (ob : Option CommandBatch)
    (b : CommandBatch),
    (∀ b0, ob = some b0 → (b0.mFence && b0.mExternalFence) = false) →
    ops.foldl (fun ob op => ob.bind (fun b => b.applyOp op)) ob = some b →
    (b.mFence && b.mExternalFence) = false := by
  intro ops
  induction ops with
  | nil =>
      intro ob b hob h
      simp only [List.foldl_nil] at h
      exact hob b h
  | cons op rest ih =>
      intro ob b hob h
      simp only [List.foldl_cons] at h
      refine ih _ b ?_ h
      intro b0 h0
      match hob2 : ob, hob, h0 with
      | none, hob, h0 => exact absurd h0 (by simp)
      | some b1, hob, h0 =>
          simp only [Option.some_bind] at h0
          exact applyOp_excl_aux b1 b0 op (hob b1 rfl) h0

/-- C8: every batch reachable by the guarded operation sequence holds at
most one fence source (the internal and external fences are never both
present, which is the hasFence assertion); and both initFence and
setExternalFence refuse a batch that already has a fence of either
kind. -/
theorem commandBatch_fence_exclusive :
    (∀ (ops : List BatchOp) (b : CommandBatch), CommandBatch.applyOps ops = some b →
      (b.mFence && b.mExternalFence) = false ∧ b.hasFenceAssertOk = true) ∧
    (∀ b : CommandBatch, b.hasFenceB = true →
      (∀ initOk, b.applyOp (.initFence initOk) = none) ∧
      b.applyOp .setExternalFence = none) := by
  constructor
  · intro ops b h
    have hx : (b.mFence && b.mExternalFence) = false := by
      refine applyOps_excl_aux ops (some CommandBatch.empty) b ?_ h
      intro b0 h0
      cases h0
      rfl
    refine ⟨hx, ?_⟩
    unfold CommandBatch.hasFenceAssertOk
    cases hf : b.mFence <;> cases he : b.mExternalFence <;> simp_all
  · intro b hf
    constructor
    · intro initOk
      simp [CommandBatch.applyOp, hf]
    · simp [CommandBatch.applyOp, hf]

/-- Witness for C8: a serial-stamped batch that acquired an internal
fence keeps the external slot empty, and a fenced batch refuses a second
fence source. -/
theorem commandBatch_fence_exclusive_witness :
    (((CommandBatch.empty.setQueueSerialU ⟨0, 1⟩).initFenceU.mFence &&
      (CommandBatch.empty.setQueueSerialU ⟨0, 1⟩).initFenceU.mExternalFence) = false) ∧
    sampleBatch1.applyOp .setExternalFence = none := by
  constructor
  · exact ((commandBatch_fence_exclusive).1 [.setQueueSerial ⟨0, 1⟩, .initFence true]
      ((CommandBatch.empty.setQueueSerialU ⟨0, 1⟩).initFenceU) (by decide)).1
  · exact ((commandBatch_fence_exclusive).2 sampleBatch1 (by decide)).2

/-- C10: waitForResourceUseToFinishWithUserTimeout on a use that was
never observed submitted returns Continue with VK_TIMEOUT in the out
parameter, leaves the queue state untouched (rings and serial trackers
included) and performs no fence wait. -/
theorem waitUserTimeout_unsubmitted_spec (env : DeviceEnv) (q : CommandQueue)
    (use : ResourceUse) (timeout fuel : Nat)
    (h : q.hasResourceUseSubmitted use = false) :
    CommandQueue.waitForResourceUseToFinishWithUserTimeout env q use timeout fuel =
      (⟨none, q, [], [QEvent.warnUnsubmittedWait]⟩, .timeout) := by
  unfold CommandQueue.waitForResourceUseToFinishWithUserTimeout
  rw [h]
  rfl

/-- Witness for C10: waiting on serial (0, 1) against an idle queue. -/
theorem waitUserTimeout_unsubmitted_witness :
    sampleQueue.hasResourceUseSubmitted [⟨0, 1⟩] = false ∧
    (CommandQueue.waitForResourceUseToFinishWithUserTimeout okEnv sampleQueue
      [⟨0, 1⟩] 7 3).2 = .timeout ∧
    (CommandQueue.waitForResourceUseToFinishWithUserTimeout okEnv sampleQueue
      [⟨0, 1⟩] 7 3).1.st.mInFlightCommands = sampleQueue.mInFlightCommands := by
  refine ⟨by decide, ?_, ?_⟩ <;>
    rw [waitUserTimeout_unsubmitted_spec okEnv sampleQueue [⟨0, 1⟩] 7 3 (by decide)]

theorem handleDeviceLostLoop_spec (env : DeviceEnv) :
    ∀ (l : List CommandBatch) (q : CommandQueue), q.mInFlightCommands = l →
      (CommandQueue.handleDeviceLostLoop env l q).1.mInFlightCommands = [] ∧
      (∀ b ∈ l,
        (b.hasFenceB = true →
          QEvent.waitFence b.mQueueSerial env.maxFenceWaitTimeNs ∈
            (CommandQueue.handleDeviceLostLoop env l q).2) ∧
        QEvent.setLastCompleted b.mQueueSerial ∈
          (CommandQueue.handleDeviceLostLoop env l q).2 ∧
        (b.mHasPrimaryCommands = true →
          QEvent.destroyPrimary b.mQueueSerial ∈
            (CommandQueue.handleDeviceLostLoop env l q).2) ∧
        (b.mFence = true →
          QEvent.detachFenceRecycler b.mQueueSerial ∈
            (CommandQueue.handleDeviceLostLoop env l q).2)) ∧
      (∀ qs, QEvent.collectPrimary qs ∉ (CommandQueue.handleDeviceLostLoop env l q).2) := by
  intro l
  induction l with
  | nil =>
      intro q hq
      refine ⟨?_, by simp, by simp [CommandQueue.handleDeviceLostLoop]⟩
      simpa [CommandQueue.handleDeviceLostLoop] using hq
  | cons b rest ih =>
      intro q hq
      have hq2 : (CommandQueue.popInFlightBatchLocked
          { q with mLastCompletedSerials :=
              setSerialAt q.mLastCompletedSerials b.mQueueSerial }).mInFlightCommands
          = rest := by
        simp [CommandQueue.popInFlightBatchLocked, hq]
      obtain ⟨h1, h2, h3⟩ := ih _ hq2
      simp only [CommandQueue.handleDeviceLostLoop]
      refine ⟨h1, ?_, ?_⟩
      · intro b2 hb2
        rcases List.mem_cons.mp hb2 with hb2 | hb2
        · subst hb2
          refine ⟨?_, ?_, ?_, ?_⟩
          · intro hf; simp [hf, List.mem_append]
          · simp [List.mem_append]
          · intro hp; simp [CommandBatch.destroyEvents, hp, List.mem_append]
          · intro hfe; simp [CommandBatch.destroyEvents, hfe, List.mem_append]
        · obtain ⟨g1, g2, g3, g4⟩ := h2 b2 hb2
          refine ⟨?_, ?_, ?_, ?_⟩
          · intro hf; simp [List.mem_append, g1 hf]
          · simp [List.mem_append, g2]
          · intro hp; simp [List.mem_append, g3 hp]
          · intro hfe; simp [List.mem_append, g4 hfe]
      · intro qs
        have hr := h3 qs
        simp only [List.mem_append, List.mem_cons]
        intro hcon
        rcases hcon with (hcon | hcon) | hcon
        · revert hcon
          cases hfb : b.hasFenceB <;> simp
        · revert hcon
          simp only [CommandBatch.destroyEvents]
          cases hp : b.mHasPrimaryCommands <;> cases hmf : b.mFence <;> simp
        · exact hr hcon

/-- C3: handleDeviceLost drains the in-flight ring under all three locks;
every fenced batch's fence is waited on with the bounded timeout (a
DeviceLost wait result is accepted: the drain proceeds for every
environment), every batch's serial is recorded completed and the batch
is destroyed directly — its primary buffer destroyed (never returned to
a pool: no collectPrimary event exists) and its internal fence detached
from the recycler; and CommandQueue::destroy sets every last-completed
slot to the infinite serial so subsequent garbage is freed. -/
theorem handleDeviceLost_spec (env : DeviceEnv) (q : CommandQueue) :
    ((q.handleDeviceLost env).1.mInFlightCommands = [] ∧
     (q.handleDeviceLost env).2.take 3 =
       [QEvent.lockAcquire .submitL, QEvent.lockAcquire .completeL,
        QEvent.lockAcquire .releaseL] ∧
     (∀ b ∈ q.mInFlightCommands,
       (b.hasFenceB = true →
         QEvent.waitFence b.mQueueSerial env.maxFenceWaitTimeNs ∈
           (q.handleDeviceLost env).2) ∧
       QEvent.setLastCompleted b.mQueueSerial ∈ (q.handleDeviceLost env).2 ∧
       (b.mHasPrimaryCommands = true →
         QEvent.destroyPrimary b.mQueueSerial ∈ (q.handleDeviceLost env).2) ∧
       (b.mFence = true →
         QEvent.detachFenceRecycler b.mQueueSerial ∈ (q.handleDeviceLost env).2)) ∧
     (∀ qs, QEvent.collectPrimary qs ∉ (q.handleDeviceLost env).2)) ∧
    (∀ (q' : CommandQueue) (i : Nat),
      (CommandQueue.destroy q').1.mLastCompletedSerials i = SerialM.inf) := by
  obtain ⟨h1, h2, h3⟩ := handleDeviceLostLoop_spec env q.mInFlightCommands q rfl
  constructor
  · refine ⟨?_, ?_, ?_, ?_⟩
    · simpa [CommandQueue.handleDeviceLost] using h1
    · simp [CommandQueue.handleDeviceLost]
    · intro b hb
      obtain ⟨g1, g2, g3, g4⟩ := h2 b hb
      refine ⟨?_, ?_, ?_, ?_⟩
      · intro hf; simp [CommandQueue.handleDeviceLost, List.mem_append, g1 hf]
      · simp [CommandQueue.handleDeviceLost, List.mem_append, g2]
      · intro hp; simp [CommandQueue.handleDeviceLost, List.mem_append, g3 hp]
      · intro hfe; simp [CommandQueue.handleDeviceLost, List.mem_append, g4 hfe]
    · intro qs
      have hr := h3 qs
      simp only [CommandQueue.handleDeviceLost, List.mem_append, List.mem_cons]
      intro hcon
      rcases hcon with (hcon | hcon) | hcon
      · simp at hcon
      · exact hr hcon
      · simp at hcon
  · intro q' i
    rfl

/-- Witness for C3: a device-lost drain of a queue holding two fenced
batches, with the device reporting DeviceLost from the fence waits. -/
theorem handleDeviceLost_spec_witness :
    (busyQueue.handleDeviceLost lostEnv).1.mInFlightCommands = [] ∧
    QEvent.waitFence ⟨0, 1⟩ lostEnv.maxFenceWaitTimeNs ∈
      (busyQueue.handleDeviceLost lostEnv).2 ∧
    QEvent.destroyPrimary ⟨0, 1⟩ ∈ (busyQueue.handleDeviceLost lostEnv).2 ∧
    QEvent.collectPrimary ⟨0, 1⟩ ∉ (busyQueue.handleDeviceLost lostEnv).2 ∧
    (CommandQueue.destroy busyQueue).1.mLastCompletedSerials 0 = SerialM.inf := by
  have h := handleDeviceLost_spec lostEnv busyQueue
  have hb : sampleBatch1 ∈ busyQueue.mInFlightCommands := by decide
  obtain ⟨g1, g2, g3, g4⟩ := h.1.2.2.1 sampleBatch1 hb
  exact ⟨h.1.1, g1 (by decide), g3 (by decide), h.1.2.2.2 ⟨0, 1⟩, h.2 busyQueue 0⟩

/-- C7: enqueuePresent marks the status pending with a provisional
VK_SUCCESS and queues the Present task; the worker stores the device
present result into lastPresentResult and only afterwards clears
isPending (visible in the snapshot order), and an OUT_OF_DATE or
SUBOPTIMAL result is never pushed onto the error bus. -/
theorem present_nonfatal_spec (fuel n : Nat) (env : DeviceEnv)
    (w wq : CommandProcessor) (prio : ContextPriority) (statusId : Nat)
    (hr : env.presentResult = .errorOutOfDateKHR ∨ env.presentResult = .suboptimalKHR)
    (hcap : w.mTaskQueue.length ≠ w.mTaskQueueCap) :
    ((CommandProcessor.enqueuePresent fuel env w prio statusId).1.mSwapchainStatuses statusId
        = ⟨true, .success⟩ ∧
     (CommandProcessor.enqueuePresent fuel env w prio statusId).1.mTaskQueue =
        w.mTaskQueue ++ [.present prio statusId]) ∧
    (match CommandProcessor.processTask (n + 1) env wq (.present prio statusId) with
     | (.ok w2, evs) =>
         w2.mErrors = wq.mErrors ∧
         w2.mSwapchainStatuses statusId = ⟨false, env.presentResult⟩ ∧
         evs = [QEvent.devicePresent statusId, QEvent.lockAcquire .submitL,
           QEvent.lockRelease .submitL,
           QEvent.statusSnap statusId
             ⟨(wq.mSwapchainStatuses statusId).isPending, env.presentResult⟩,
           QEvent.statusSnap statusId ⟨false, env.presentResult⟩]
     | _ => False) := by
  constructor
  · simp only [CommandProcessor.enqueuePresent, CommandProcessor.queueCommand,
      CommandProcessor.setStatus]
    simp [hcap]
  · simp only [CommandProcessor.processTask]
    rcases hr with hr | hr <;>
      simp [CommandProcessor.presentImpl, CommandQueue.queuePresent,
        CommandProcessor.setStatus, hr]

/-- Witness for C7: a suboptimal present against the sample processor. -/
theorem present_nonfatal_spec_witness :
    ((CommandProcessor.enqueuePresent 1 { okEnv with presentResult := .suboptimalKHR }
        sampleProcessor .Medium 0).1.mSwapchainStatuses 0 = ⟨true, .success⟩ ∧
     (CommandProcessor.enqueuePresent 1 { okEnv with presentResult := .suboptimalKHR }
        sampleProcessor .Medium 0).1.mTaskQueue =
        sampleProcessor.mTaskQueue ++ [.present .Medium 0]) ∧
    (match CommandProcessor.processTask (0 + 1) { okEnv with presentResult := .suboptimalKHR }
        sampleProcessor (.present .Medium 0) with
     | (.ok w2, evs) =>
         w2.mErrors = sampleProcessor.mErrors ∧
         w2.mSwapchainStatuses 0 = ⟨false, VkResult.suboptimalKHR⟩ ∧
         evs = [QEvent.devicePresent 0, QEvent.lockAcquire .submitL,
           QEvent.lockRelease .submitL,
           QEvent.statusSnap 0
             ⟨(sampleProcessor.mSwapchainStatuses 0).isPending, VkResult.suboptimalKHR⟩,
           QEvent.statusSnap 0 ⟨false, VkResult.suboptimalKHR⟩]
     | _ => False) := by
  have h := present_nonfatal_spec 1 0 { okEnv with presentResult := .suboptimalKHR }
    sampleProcessor sampleProcessor .Medium 0 (Or.inr rfl) (by decide)
  exact h

theorem onFinished_preserves (q : CommandQueue) (b : CommandBatch) :
    (q.onCommandBatchFinishedLocked b).1.mLastSubmittedSerials = q.mLastSubmittedSerials ∧
    (q.onCommandBatchFinishedLocked b).1.mInFlightCap = q.mInFlightCap ∧
    (q.onCommandBatchFinishedLocked b).1.mFinishedCap = q.mFinishedCap ∧
    (q.onCommandBatchFinishedLocked b).1.mNumAllCommands = q.mNumAllCommands ∧
    (∀ s ∈ (q.onCommandBatchFinishedLocked b).2.1,
      s.mLastSubmittedSerials = q.mLastSubmittedSerials) := by
  unfold CommandQueue.onCommandBatchFinishedLocked
    CommandQueue.moveInFlightBatchToFinishedQueueLocked
  cases hl : q.mInFlightCommands <;> simp

theorem onFinished_cons (q : CommandQueue) (b : CommandBatch) (rest : List CommandBatch)
    (h : q.mInFlightCommands = b :: rest) :
    (q.onCommandBatchFinishedLocked b).1.mInFlightCommands = rest ∧
    (q.onCommandBatchFinishedLocked b).1.mFinishedCommandBatches =
      q.mFinishedCommandBatches ++ [b] := by
  unfold CommandQueue.onCommandBatchFinishedLocked
    CommandQueue.moveInFlightBatchToFinishedQueueLocked
  simp [h]

theorem finishOne_preserves (env : DeviceEnv) (q : CommandQueue) (t : Nat) :
    (q.finishOneCommandBatchLocked env t).st.mLastSubmittedSerials =
      q.mLastSubmittedSerials ∧
    (q.finishOneCommandBatchLocked env t).st.mInFlightCap = q.mInFlightCap ∧
    (q.finishOneCommandBatchLocked env t).st.mFinishedCap = q.mFinishedCap ∧
    (q.finishOneCommandBatchLocked env t).st.mNumAllCommands = q.mNumAllCommands ∧
    (∀ s ∈ (q.finishOneCommandBatchLocked env t).states,
      s.mLastSubmittedSerials = q.mLastSubmittedSerials) := by
  unfold CommandQueue.finishOneCommandBatchLocked
  match hl : q.mInFlightCommands with
  | [] => simp
  | b :: rest =>
      have hp := onFinished_preserves q b
      by_cases hf : b.hasFenceB = true
      · by_cases hw : env.waitFenceResult = .success
        · simp [hf, hw]
          exact ⟨hp.1, hp.2.1, hp.2.2.1, hp.2.2.2.1, hp.2.2.2.2⟩
        · simp [hf, hw]
      · simp only [hf]
        simp
        exact ⟨hp.1, hp.2.1, hp.2.2.1, hp.2.2.2.1, hp.2.2.2.2⟩

theorem finishOne_cons (env : DeviceEnv) (q : CommandQueue) (t : Nat)
    (b : CommandBatch) (rest : List CommandBatch) (h : q.mInFlightCommands = b :: rest) :
    ((q.finishOneCommandBatchLocked env t).err = none →
      (q.finishOneCommandBatchLocked env t).st.mInFlightCommands = rest ∧
      (q.finishOneCommandBatchLocked env t).st.mFinishedCommandBatches =
        q.mFinishedCommandBatches ++ [b]) ∧
    (b.hasFenceB = true →
      QEvent.waitFence b.mQueueSerial t ∈ (q.finishOneCommandBatchLocked env t).events) := by
  unfold CommandQueue.finishOneCommandBatchLocked
  have hoc := onFinished_cons q b rest h
  rw [h]
  by_cases hf : b.hasFenceB = true
  · by_cases hw : env.waitFenceResult = .success
    · simp [hf, hw]
      exact ⟨hoc.1, hoc.2⟩
    · simp [hf, hw]
  · simp [hf]
    exact ⟨hoc.1, hoc.2⟩

theorem finishOne_events_shape (env : DeviceEnv) (q : CommandQueue) (t : Nat) :
    ∀ e ∈ (q.finishOneCommandBatchLocked env t).events,
      (∃ qs u, e = QEvent.waitFence qs u) ∨ (∃ qs, e = QEvent.setLastCompleted qs) := by
  unfold CommandQueue.finishOneCommandBatchLocked
  match hl : q.mInFlightCommands with
  | [] => simp
  | b :: rest =>
      unfold CommandQueue.onCommandBatchFinishedLocked
      by_cases hf : b.hasFenceB = true
      · by_cases hw : env.waitFenceResult = .success
        · simp [hf, hw]
        · simp [hf, hw]
      · simp [hf]

theorem releaseLoop_preserves (env : DeviceEnv) : ∀ (l : List CommandBatch)
    (q : CommandQueue),
    (CommandQueue.releaseFinishedLoop env l q).st.mLastSubmittedSerials =
      q.mLastSubmittedSerials ∧
    (CommandQueue.releaseFinishedLoop env l q).st.mInFlightCap = q.mInFlightCap ∧
    (CommandQueue.releaseFinishedLoop env l q).st.mFinishedCap = q.mFinishedCap ∧
    (CommandQueue.releaseFinishedLoop env l q).st.mInFlightCommands =
      q.mInFlightCommands ∧
    (∀ s ∈ (CommandQueue.releaseFinishedLoop env l q).states,
      s.mLastSubmittedSerials = q.mLastSubmittedSerials) := by
  intro l
  induction l with
  | nil => intro q; simp [CommandQueue.releaseFinishedLoop]
  | cons b rest ih =>
      intro q
      unfold CommandQueue.releaseFinishedLoop
      match hre : b.releaseEvents env with
      | (some e, evs) => simp
      | (none, evs) =>
          obtain ⟨i1, i2, i3, i4, i5⟩ := ih q.popFinishedBatchLocked
          simp only []
          refine ⟨i1, i2, i3, i4, ?_⟩
          intro s hs
          rcases List.mem_cons.mp hs with hs | hs
          · subst hs; rfl
          · exact i5 s hs

theorem releaseLoop_complete (env : DeviceEnv) : ∀ (l : List CommandBatch)
    (q : CommandQueue), q.mFinishedCommandBatches = l →
    (CommandQueue.releaseFinishedLoop env l q).err = none →
    (CommandQueue.releaseFinishedLoop env l q).st.mFinishedCommandBatches = [] ∧
    (CommandQueue.releaseFinishedLoop env l q).st.mNumAllCommands =
      q.mNumAllCommands - l.length := by
  intro l
  induction l with
  | nil => intro q hq herr; simp [CommandQueue.releaseFinishedLoop, hq]
  | cons b rest ih =>
      intro q hq herr
      unfold CommandQueue.releaseFinishedLoop at herr ⊢
      match hre : b.releaseEvents env with
      | (some e, evs) => rw [hre] at herr; exact absurd herr (by simp)
      | (none, evs) =>
          rw [hre] at herr
          simp only [] at herr ⊢
          have hq1 : q.popFinishedBatchLocked.mFinishedCommandBatches = rest := by
            simp [CommandQueue.popFinishedBatchLocked, hq]
          obtain ⟨j1, j2⟩ := ih q.popFinishedBatchLocked hq1 herr
          refine ⟨j1, ?_⟩
          rw [j2]
          simp [CommandQueue.popFinishedBatchLocked, List.length_cons]
          omega

theorem releaseEvents_shape (env : DeviceEnv) (b : CommandBatch) :
    ∀ e ∈ (b.releaseEvents env).2, e = QEvent.collectPrimary b.mQueueSerial := by
  unfold CommandBatch.releaseEvents
  split_ifs <;> simp

theorem releaseLoop_events_shape (env : DeviceEnv) : ∀ (l : List CommandBatch)
    (q : CommandQueue), ∀ e ∈ (CommandQueue.releaseFinishedLoop env l q).events,
      ∃ qs, e = QEvent.collectPrimary qs := by
  intro l
  induction l with
  | nil => intro q; simp [CommandQueue.releaseFinishedLoop]
  | cons b rest ih =>
      intro q e he
      unfold CommandQueue.releaseFinishedLoop at he
      split at he
      · rename_i e2 evs hre
        have hevs : evs = (b.releaseEvents env).2 := by rw [hre]
        exact ⟨b.mQueueSerial, releaseEvents_shape env b e (hevs ▸ he)⟩
      · rename_i evs hre
        have hevs : evs = (b.releaseEvents env).2 := by rw [hre]
        simp only [List.mem_append] at he
        rcases he with he | he
        · exact ⟨b.mQueueSerial, releaseEvents_shape env b e (hevs ▸ he)⟩
        · exact ih _ e he

theorem releaseLoop_allOk (env : DeviceEnv) (hok : env.collectOk = true) :
    ∀ (l : List CommandBatch) (q : CommandQueue),
      (CommandQueue.releaseFinishedLoop env l q).err = none := by
  intro l
  induction l with
  | nil => intro q; simp [CommandQueue.releaseFinishedLoop]
  | cons b rest ih =>
      intro q
      unfold CommandQueue.releaseFinishedLoop
      unfold CommandBatch.releaseEvents
      by_cases hp : b.mHasPrimaryCommands = true
      · simp [hp, hok]
        exact ih _
      · simp [hp]
        exact ih _

theorem finishOne_allOk (env : DeviceEnv) (hok : env.waitFenceResult = .success)
    (q : CommandQueue) (t : Nat) :
    (q.finishOneCommandBatchLocked env t).err = none := by
  unfold CommandQueue.finishOneCommandBatchLocked
  match hl : q.mInFlightCommands with
  | [] => simp
  | b :: rest =>
      by_cases hf : b.hasFenceB = true
      · simp [hf, hok]
      · simp [hf]

theorem queueSubmitTail_spec (env : DeviceEnv) (q2 : CommandQueue) (siv : Bool)
    (batch : CommandBatch) (qs : QueueSerial) (s0 : List CommandQueue)
    (e0 : List QEvent) (r : QSubmitRes)
    (hr : r = CommandQueue.queueSubmitTail env q2 siv batch qs s0 e0) :
    (r.pushed = true → r.prePush = q2 ∧
      r.st.mInFlightCommands = q2.mInFlightCommands ++ [batch] ∧
      r.st.mLastSubmittedSerials = setSerialAt q2.mLastSubmittedSerials qs ∧
      r.states = s0 ++ [q2.pushInFlightBatchLocked batch, r.st]) ∧
    (r.pushed = false → r.states = s0) ∧
    (∀ e ∈ r.events, e ∈ e0 ∨ e = QEvent.deviceSubmit qs ∨ e = QEvent.exportFd qs ∨
      e = QEvent.pushBatch qs ∨ e = QEvent.advanceLastSubmitted qs) ∧
    (siv = false →
      r.events = e0 ++ [QEvent.pushBatch qs, QEvent.advanceLastSubmitted qs] ∧
      r.pushed = true ∧ r.err = none) ∧
    (siv = true → env.submitResult = .success →
      QEvent.deviceSubmit qs ∈ r.events ∧ r.pushed = true ∧ r.err = none) := by
  subst hr
  unfold CommandQueue.queueSubmitTail
  cases siv <;> by_cases hsub : env.submitResult = .success <;>
    by_cases hext : batch.mExternalFence = true <;>
    simp [hsub, hext, CommandQueue.pushInFlightBatchLocked] <;>
    intro e he <;> (try simp at he) <;> tauto

theorem phase1_spec (env : DeviceEnv) (q : CommandQueue) :
    ((q.queueSubmitPhase1 env).st.mLastSubmittedSerials = q.mLastSubmittedSerials ∧
     (q.queueSubmitPhase1 env).st.mInFlightCap = q.mInFlightCap ∧
     (q.queueSubmitPhase1 env).st.mFinishedCap = q.mFinishedCap ∧
     (q.queueSubmitPhase1 env).st.mNumAllCommands = q.mNumAllCommands ∧
     (∀ s ∈ (q.queueSubmitPhase1 env).states,
       s.mLastSubmittedSerials = q.mLastSubmittedSerials)) ∧
    (¬(q.mInFlightCommands.length = q.mInFlightCap) →
      q.queueSubmitPhase1 env = ⟨none, q, [], []⟩) ∧
    (q.mInFlightCommands.length = q.mInFlightCap →
      ∀ b rest, q.mInFlightCommands = b :: rest →
        ((q.queueSubmitPhase1 env).err = none →
          (q.queueSubmitPhase1 env).st.mInFlightCommands = rest ∧
          (q.queueSubmitPhase1 env).st.mFinishedCommandBatches =
            q.mFinishedCommandBatches ++ [b]) ∧
        (b.hasFenceB = true →
          QEvent.waitFence b.mQueueSerial env.maxFenceWaitTimeNs ∈
            (q.queueSubmitPhase1 env).events ∧
          QEvent.lockAcquire .completeL ∈ (q.queueSubmitPhase1 env).events)) ∧
    (∀ e ∈ (q.queueSubmitPhase1 env).events,
      e = QEvent.lockAcquire .completeL ∨ e = QEvent.lockRelease .completeL ∨
      (∃ qs u, e = QEvent.waitFence qs u) ∨ (∃ qs, e = QEvent.setLastCompleted qs)) ∧
    (env.waitFenceResult = .success → (q.queueSubmitPhase1 env).err = none) := by
  unfold CommandQueue.queueSubmitPhase1
  by_cases hfull : q.mInFlightCommands.length = q.mInFlightCap
  · rw [if_pos hfull, if_pos hfull]
    have hp := finishOne_preserves env q env.maxFenceWaitTimeNs
    refine ⟨⟨hp.1, hp.2.1, hp.2.2.1, hp.2.2.2.1, hp.2.2.2.2⟩, ?_, ?_, ?_, ?_⟩
    · intro hc; exact absurd hfull hc
    · intro _ b rest hbr
      have hc := finishOne_cons env q env.maxFenceWaitTimeNs b rest hbr
      refine ⟨hc.1, ?_⟩
      intro hfb
      constructor
      · exact List.mem_cons_of_mem _ (List.mem_append_left _ (hc.2 hfb))
      · exact List.mem_cons_self _ _
    · intro e he
      rcases List.mem_cons.mp he with he | he
      · exact Or.inl he
      · rcases List.mem_append.mp he with he | he
        · rcases finishOne_events_shape env q env.maxFenceWaitTimeNs e he with h | h
          · exact Or.inr (Or.inr (Or.inl h))
          · exact Or.inr (Or.inr (Or.inr h))
        · rcases List.mem_singleton.mp he with rfl
          exact Or.inr (Or.inl rfl)
    · intro hok
      exact finishOne_allOk env hok q env.maxFenceWaitTimeNs
  · rw [if_neg hfull]
    exact ⟨⟨rfl, rfl, rfl, rfl, by simp⟩, fun _ => rfl,
      fun h => absurd h hfull, by simp, fun _ => rfl⟩

theorem phase2_spec (env : DeviceEnv) (q1 : CommandQueue) :
    ((CommandQueue.queueSubmitPhase2 env q1).st.mLastSubmittedSerials =
       q1.mLastSubmittedSerials ∧
     (CommandQueue.queueSubmitPhase2 env q1).st.mInFlightCap = q1.mInFlightCap ∧
     (CommandQueue.queueSubmitPhase2 env q1).st.mFinishedCap = q1.mFinishedCap ∧
     (CommandQueue.queueSubmitPhase2 env q1).st.mInFlightCommands =
       q1.mInFlightCommands ∧
     (∀ s ∈ (CommandQueue.queueSubmitPhase2 env q1).states,
       s.mLastSubmittedSerials = q1.mLastSubmittedSerials)) ∧
    (¬(q1.mNumAllCommands = q1.mFinishedCap) →
      CommandQueue.queueSubmitPhase2 env q1 = ⟨none, q1, [], []⟩) ∧
    (q1.mNumAllCommands = q1.mFinishedCap →
      ((CommandQueue.queueSubmitPhase2 env q1).err = none →
        (CommandQueue.queueSubmitPhase2 env q1).st.mFinishedCommandBatches = [] ∧
        (CommandQueue.queueSubmitPhase2 env q1).st.mNumAllCommands =
          q1.mNumAllCommands - q1.mFinishedCommandBatches.length) ∧
      QEvent.lockAcquire .releaseL ∈ (CommandQueue.queueSubmitPhase2 env q1).events) ∧
    (∀ e ∈ (CommandQueue.queueSubmitPhase2 env q1).events,
      e = QEvent.lockAcquire .releaseL ∨ e = QEvent.lockRelease .releaseL ∨
      (∃ qs, e = QEvent.collectPrimary qs)) ∧
    (env.collectOk = true → (CommandQueue.queueSubmitPhase2 env q1).err = none) := by
  unfold CommandQueue.queueSubmitPhase2 CommandQueue.releaseFinishedCommandsLocked
  by_cases hc : q1.mNumAllCommands = q1.mFinishedCap
  · rw [if_pos hc]
    have hp := releaseLoop_preserves env q1.mFinishedCommandBatches q1
    refine ⟨⟨hp.1, hp.2.1, hp.2.2.1, hp.2.2.2.1, hp.2.2.2.2⟩, ?_, ?_, ?_, ?_⟩
    · intro hcon; exact absurd hc hcon
    · intro _
      constructor
      · intro herr
        exact releaseLoop_complete env q1.mFinishedCommandBatches q1 rfl herr
      · exact List.mem_cons_self _ _
    · intro e he
      rcases List.mem_cons.mp he with he | he
      · exact Or.inl he
      · rcases List.mem_append.mp he with he | he
        · exact Or.inr (Or.inr
            (releaseLoop_events_shape env q1.mFinishedCommandBatches q1 e he))
        · rcases List.mem_singleton.mp he with rfl
          exact Or.inr (Or.inl rfl)
    · intro hok
      exact releaseLoop_allOk env hok q1.mFinishedCommandBatches q1
  · rw [if_neg hc]
    exact ⟨⟨rfl, rfl, rfl, rfl, by simp⟩, fun _ => rfl,
      fun h => absurd h hc, by simp, fun _ => rfl⟩
theorem queueSubmitLocked_allOk (env : DeviceEnv) (q : CommandQueue) (siv : Bool)
    (batch : CommandBatch) (qs : QueueSerial) (hok : env.allOk) :
    (q.queueSubmitLocked env siv batch qs).err = none ∧
    (q.queueSubmitLocked env siv batch qs).pushed = true := by
  obtain ⟨ho1, ho2, ho3, ho4, ho5, ho6, ho7, ho8⟩ := hok
  unfold CommandQueue.queueSubmitLocked
  have h1 : (q.queueSubmitPhase1 env).err = none :=
    (phase1_spec env q).2.2.2.2 ho6
  have h2 : (CommandQueue.queueSubmitPhase2 env (q.queueSubmitPhase1 env).st).err = none :=
    (phase2_spec env (q.queueSubmitPhase1 env).st).2.2.2.2 ho5
  simp only [h1, h2]
  have ht := queueSubmitTail_spec env
    (CommandQueue.queueSubmitPhase2 env (q.queueSubmitPhase1 env).st).st siv batch qs
    ((q.queueSubmitPhase1 env).states ++
      (CommandQueue.queueSubmitPhase2 env (q.queueSubmitPhase1 env).st).states)
    ((q.queueSubmitPhase1 env).events ++
      (CommandQueue.queueSubmitPhase2 env (q.queueSubmitPhase1 env).st).events)
    _ rfl
  cases siv
  · obtain ⟨hev, hp, he⟩ := ht.2.2.2.1 rfl
    exact ⟨he, hp⟩
  · obtain ⟨hds, hp, he⟩ := ht.2.2.2.2 rfl ho1
    exact ⟨he, hp⟩

theorem queueSubmitTail_keeps_e0 (env : DeviceEnv) (q2 : CommandQueue) (siv : Bool)
    (batch : CommandBatch) (qs : QueueSerial) (s0 : List CommandQueue)
    (e0 : List QEvent) :
    ∀ e ∈ e0, e ∈ (CommandQueue.queueSubmitTail env q2 siv batch qs s0 e0).events := by
  unfold CommandQueue.queueSubmitTail
  cases siv <;> by_cases hsub : env.submitResult = .success <;>
    by_cases hext : batch.mExternalFence = true <;>
    simp [hsub, hext] <;> intro e he <;> simp [he]

theorem queueSubmitLocked_states (env : DeviceEnv) (q : CommandQueue) (siv : Bool)
    (batch : CommandBatch) (qs : QueueSerial) :
    ∀ s ∈ (q.queueSubmitLocked env siv batch qs).states,
      s.mLastSubmittedSerials = q.mLastSubmittedSerials ∨
      (s.mInFlightCommands.any (fun b2 => b2.mQueueSerial == batch.mQueueSerial)) = true := by
  have p1p := (phase1_spec env q).1
  unfold CommandQueue.queueSubmitLocked
  cases herr1 : (q.queueSubmitPhase1 env).err with
  | some e =>
      simp only [herr1]
      intro s hs
      exact Or.inl (p1p.2.2.2.2 s hs)
  | none =>
      simp only [herr1]
      have p2p := (phase2_spec env (q.queueSubmitPhase1 env).st).1
      cases herr2 : (CommandQueue.queueSubmitPhase2 env (q.queueSubmitPhase1 env).st).err with
      | some e =>
          simp only [herr2]
          intro s hs
          rcases List.mem_append.mp hs with hs | hs
          · exact Or.inl (p1p.2.2.2.2 s hs)
          · exact Or.inl ((p2p.2.2.2.2 s hs).trans p1p.1)
      | none =>
          simp only [herr2]
          have ht := queueSubmitTail_spec env
            (CommandQueue.queueSubmitPhase2 env (q.queueSubmitPhase1 env).st).st siv batch qs
            ((q.queueSubmitPhase1 env).states ++
              (CommandQueue.queueSubmitPhase2 env (q.queueSubmitPhase1 env).st).states)
            ((q.queueSubmitPhase1 env).events ++
              (CommandQueue.queueSubmitPhase2 env (q.queueSubmitPhase1 env).st).events)
            _ rfl
          intro s hs
          have hmem0 : ∀ s2, s2 ∈ ((q.queueSubmitPhase1 env).states ++
              (CommandQueue.queueSubmitPhase2 env (q.queueSubmitPhase1 env).st).states) →
              s2.mLastSubmittedSerials = q.mLastSubmittedSerials := by
            intro s2 hs2
            rcases List.mem_append.mp hs2 with hs2 | hs2
            · exact p1p.2.2.2.2 s2 hs2
            · exact (p2p.2.2.2.2 s2 hs2).trans p1p.1
          cases hp : (CommandQueue.queueSubmitTail env
              (CommandQueue.queueSubmitPhase2 env (q.queueSubmitPhase1 env).st).st siv batch qs
              ((q.queueSubmitPhase1 env).states ++
                (CommandQueue.queueSubmitPhase2 env (q.queueSubmitPhase1 env).st).states)
              ((q.queueSubmitPhase1 env).events ++
                (CommandQueue.queueSubmitPhase2 env (q.queueSubmitPhase1 env).st).events)).pushed
          with
          | false =>
              rw [ht.2.1 hp] at hs
              exact Or.inl (hmem0 s hs)
          | true =>
              obtain ⟨hpre, hinf, hlast, hstates⟩ := ht.1 hp
              rw [hstates] at hs
              rcases List.mem_append.mp hs with hs | hs
              · exact Or.inl (hmem0 s hs)
              · rcases List.mem_cons.mp hs with hs | hs
                · subst hs
                  refine Or.inl ?_
                  show (CommandQueue.pushInFlightBatchLocked _ batch).mLastSubmittedSerials = _
                  simp only [CommandQueue.pushInFlightBatchLocked]
                  exact (p2p.1).trans p1p.1
                · rcases List.mem_singleton.mp hs with rfl
                  refine Or.inr ?_
                  rw [hinf]
                  simp
theorem queueSubmitLocked_guarantees (env : DeviceEnv) (q : CommandQueue) (siv : Bool)
    (batch : CommandBatch) (qs : QueueSerial)
    (hsum : q.mNumAllCommands =
      q.mInFlightCommands.length + q.mFinishedCommandBatches.length)
    (hle : q.mNumAllCommands ≤ q.mFinishedCap)
    (hif : q.mInFlightCommands.length ≤ q.mInFlightCap)
    (hpos : 1 ≤ q.mInFlightCap)
    (hcap : q.mInFlightCap ≤ q.mFinishedCap) :
    ((q.queueSubmitLocked env siv batch qs).pushed = true →
      (q.queueSubmitLocked env siv batch qs).prePush.mInFlightCommands.length <
        q.mInFlightCap ∧
      (q.queueSubmitLocked env siv batch qs).prePush.mNumAllCommands < q.mFinishedCap ∧
      (q.queueSubmitLocked env siv batch qs).st.mInFlightCommands =
        (q.queueSubmitLocked env siv batch qs).prePush.mInFlightCommands ++ [batch] ∧
      (q.queueSubmitLocked env siv batch qs).st.mLastSubmittedSerials =
        setSerialAt
          (q.queueSubmitLocked env siv batch qs).prePush.mLastSubmittedSerials qs) ∧
    (q.mNumAllCommands = q.mFinishedCap →
      (q.queueSubmitLocked env siv batch qs).pushed = true →
      QEvent.lockAcquire .releaseL ∈ (q.queueSubmitLocked env siv batch qs).events ∧
      (q.queueSubmitLocked env siv batch qs).prePush.mFinishedCommandBatches = []) := by
  have p1p := (phase1_spec env q).1
  unfold CommandQueue.queueSubmitLocked
  cases herr1 : (q.queueSubmitPhase1 env).err with
  | some e =>
      simp only [herr1]
      exact ⟨fun hp => by simp at hp, fun _ hp => by simp at hp⟩
  | none =>
      simp only [herr1]
      have hq1len : (q.queueSubmitPhase1 env).st.mInFlightCommands.length <
          q.mInFlightCap := by
        by_cases hfull : q.mInFlightCommands.length = q.mInFlightCap
        · match hq : q.mInFlightCommands with
          | [] => rw [hq] at hfull; simp at hfull; omega
          | b :: rest =>
              have hc := ((phase1_spec env q).2.2.1 hfull b rest hq).1 herr1
              rw [hc.1]
              rw [hq] at hfull
              simp at hfull
              omega
        · have hqq : (q.queueSubmitPhase1 env).st = q := by
            rw [(phase1_spec env q).2.1 hfull]
          rw [hqq]
          omega
      have hq1sum : (q.queueSubmitPhase1 env).st.mNumAllCommands =
          (q.queueSubmitPhase1 env).st.mInFlightCommands.length +
          (q.queueSubmitPhase1 env).st.mFinishedCommandBatches.length := by
        by_cases hfull : q.mInFlightCommands.length = q.mInFlightCap
        · match hq : q.mInFlightCommands with
          | [] => rw [hq] at hfull; simp at hfull; omega
          | b :: rest =>
              have hc := ((phase1_spec env q).2.2.1 hfull b rest hq).1 herr1
              rw [hc.1, hc.2, p1p.2.2.2.1]
              rw [hq] at hsum
              simp at hsum ⊢
              omega
        · have hqq : (q.queueSubmitPhase1 env).st = q := by
            rw [(phase1_spec env q).2.1 hfull]
          rw [hqq]
          exact hsum
      have p2p := (phase2_spec env (q.queueSubmitPhase1 env).st).1
      cases herr2 : (CommandQueue.queueSubmitPhase2 env
          (q.queueSubmitPhase1 env).st).err with
      | some e =>
          simp only [herr2]
          exact ⟨fun hp => by simp at hp, fun _ hp => by simp at hp⟩
      | none =>
          simp only [herr2]
          have hq2pre : (CommandQueue.queueSubmitPhase2 env
              (q.queueSubmitPhase1 env).st).st.mInFlightCommands.length <
              q.mInFlightCap ∧
              (CommandQueue.queueSubmitPhase2 env
                (q.queueSubmitPhase1 env).st).st.mNumAllCommands < q.mFinishedCap := by
            by_cases hn : (q.queueSubmitPhase1 env).st.mNumAllCommands =
                (q.queueSubmitPhase1 env).st.mFinishedCap
            · have hcjs := (phase2_spec env (q.queueSubmitPhase1 env).st).2.2.1 hn
              obtain ⟨hc1, hc2⟩ := hcjs.1 herr2
              constructor
              · rw [p2p.2.2.2.1]; exact hq1len
              · rw [hc2]
                have := hq1sum
                have hfc : (q.queueSubmitPhase1 env).st.mInFlightCommands.length <
                    q.mFinishedCap := lt_of_lt_of_le hq1len hcap
                omega
            · have hqq : (CommandQueue.queueSubmitPhase2 env
                  (q.queueSubmitPhase1 env).st).st = (q.queueSubmitPhase1 env).st := by
                rw [(phase2_spec env (q.queueSubmitPhase1 env).st).2.1 hn]
              rw [hqq]
              refine ⟨hq1len, ?_⟩
              rw [p1p.2.2.2.1]
              have hne : ¬(q.mNumAllCommands = q.mFinishedCap) := by
                intro hx
                apply hn
                rw [p1p.2.2.2.1, p1p.2.2.1]
                exact hx
              omega
          have ht := queueSubmitTail_spec env
            (CommandQueue.queueSubmitPhase2 env (q.queueSubmitPhase1 env).st).st siv batch qs
            ((q.queueSubmitPhase1 env).states ++
              (CommandQueue.queueSubmitPhase2 env (q.queueSubmitPhase1 env).st).states)
            ((q.queueSubmitPhase1 env).events ++
              (CommandQueue.queueSubmitPhase2 env (q.queueSubmitPhase1 env).st).events)
            _ rfl
          constructor
          · intro hp
            obtain ⟨hpre, hinf, hlast, _⟩ := ht.1 hp
            rw [hpre, hinf, hlast]
            exact ⟨hq2pre.1, hq2pre.2, rfl, rfl⟩
          · intro hfc hp
            have hn : (q.queueSubmitPhase1 env).st.mNumAllCommands =
                (q.queueSubmitPhase1 env).st.mFinishedCap := by
              rw [p1p.2.2.2.1, p1p.2.2.1]
              exact hfc
            have hcjs := (phase2_spec env (q.queueSubmitPhase1 env).st).2.2.1 hn
            obtain ⟨hpre, _, _, _⟩ := ht.1 hp
            constructor
            · exact queueSubmitTail_keeps_e0 env _ siv batch qs _ _ _
                (List.mem_append_right _ hcjs.2)
            · rw [hpre]
              exact (hcjs.1 herr2).1
theorem queueSubmitLocked_events (env : DeviceEnv) (q : CommandQueue) (siv : Bool)
    (batch : CommandBatch) (qs : QueueSerial) :
    (q.mInFlightCommands.length = q.mInFlightCap →
      ∀ b rest, q.mInFlightCommands = b :: rest → b.hasFenceB = true →
        QEvent.waitFence b.mQueueSerial env.maxFenceWaitTimeNs ∈
          (q.queueSubmitLocked env siv batch qs).events ∧
        QEvent.lockAcquire .completeL ∈ (q.queueSubmitLocked env siv batch qs).events) ∧
    (QEvent.lockRelease .submitL ∉ (q.queueSubmitLocked env siv batch qs).events) ∧
    (∀ s, QEvent.initFenceEv s ∉ (q.queueSubmitLocked env siv batch qs).events ∧
      QEvent.setExternalFenceEv s ∉ (q.queueSubmitLocked env siv batch qs).events) ∧
    (siv = false →
      QEvent.deviceSubmit qs ∉ (q.queueSubmitLocked env siv batch qs).events) := by
  have p1sh := (phase1_spec env q).2.2.2.1
  have hshape : ∀ e ∈ (q.queueSubmitLocked env siv batch qs).events,
      e = QEvent.lockAcquire .completeL ∨ e = QEvent.lockRelease .completeL ∨
      (∃ a u, e = QEvent.waitFence a u) ∨ (∃ a, e = QEvent.setLastCompleted a) ∨
      e = QEvent.lockAcquire .releaseL ∨ e = QEvent.lockRelease .releaseL ∨
      (∃ a, e = QEvent.collectPrimary a) ∨
      ((siv = true) ∧ (e = QEvent.deviceSubmit qs ∨ e = QEvent.exportFd qs)) ∨
      e = QEvent.pushBatch qs ∨ e = QEvent.advanceLastSubmitted qs := by
    unfold CommandQueue.queueSubmitLocked
    cases herr1 : (q.queueSubmitPhase1 env).err with
    | some e2 =>
        simp only [herr1]
        intro e he
        rcases p1sh e he with h | h | h | h
        exacts [.inl h, .inr (.inl h), .inr (.inr (.inl h)), .inr (.inr (.inr (.inl h)))]
    | none =>
        simp only [herr1]
        have p2sh := (phase2_spec env (q.queueSubmitPhase1 env).st).2.2.2.1
        have hmem0 : ∀ e ∈ ((q.queueSubmitPhase1 env).events ++
            (CommandQueue.queueSubmitPhase2 env (q.queueSubmitPhase1 env).st).events),
            e = QEvent.lockAcquire .completeL ∨ e = QEvent.lockRelease .completeL ∨
            (∃ a u, e = QEvent.waitFence a u) ∨ (∃ a, e = QEvent.setLastCompleted a) ∨
            e = QEvent.lockAcquire .releaseL ∨ e = QEvent.lockRelease .releaseL ∨
            (∃ a, e = QEvent.collectPrimary a) := by
          intro e he
          rcases List.mem_append.mp he with he | he
          · rcases p1sh e he with h | h | h | h
            exacts [.inl h, .inr (.inl h), .inr (.inr (.inl h)),
              .inr (.inr (.inr (.inl h)))]
          · rcases p2sh e he with h | h | h
            · exact Or.inr (Or.inr (Or.inr (Or.inr (Or.inl h))))
            · exact Or.inr (Or.inr (Or.inr (Or.inr (Or.inr (Or.inl h)))))
            · exact Or.inr (Or.inr (Or.inr (Or.inr (Or.inr (Or.inr h)))))
        cases herr2 : (CommandQueue.queueSubmitPhase2 env
            (q.queueSubmitPhase1 env).st).err with
        | some e2 =>
            simp only [herr2]
            intro e he
            rcases hmem0 e he with h | h | h | h | h | h | h
            exacts [.inl h, .inr (.inl h), .inr (.inr (.inl h)),
              .inr (.inr (.inr (.inl h))), .inr (.inr (.inr (.inr (.inl h)))),
              .inr (.inr (.inr (.inr (.inr (.inl h))))),
              .inr (.inr (.inr (.inr (.inr (.inr (.inl h))))))]
        | none =>
            simp only [herr2]
            have ht := queueSubmitTail_spec env
              (CommandQueue.queueSubmitPhase2 env (q.queueSubmitPhase1 env).st).st siv
              batch qs
              ((q.queueSubmitPhase1 env).states ++
                (CommandQueue.queueSubmitPhase2 env (q.queueSubmitPhase1 env).st).states)
              ((q.queueSubmitPhase1 env).events ++
                (CommandQueue.queueSubmitPhase2 env (q.queueSubmitPhase1 env).st).events)
              _ rfl
            intro e he
            cases hsiv : siv with
            | false =>
                rw [(ht.2.2.2.1 hsiv).1] at he
                rcases List.mem_append.mp he with he | he
                · rcases hmem0 e he with h | h | h | h | h | h | h
                  exacts [.inl h, .inr (.inl h), .inr (.inr (.inl h)),
                    .inr (.inr (.inr (.inl h))), .inr (.inr (.inr (.inr (.inl h)))),
                    .inr (.inr (.inr (.inr (.inr (.inl h))))),
                    .inr (.inr (.inr (.inr (.inr (.inr (.inl h))))))]
                · rcases List.mem_cons.mp he with he | he
                  · subst he
                    exact Or.inr (Or.inr (Or.inr (Or.inr (Or.inr (Or.inr
                      (Or.inr (Or.inr (Or.inl rfl))))))))
                  · rcases List.mem_singleton.mp he with rfl
                    exact Or.inr (Or.inr (Or.inr (Or.inr (Or.inr (Or.inr
                      (Or.inr (Or.inr (Or.inr rfl))))))))
            | true =>
                rcases ht.2.2.1 e he with h | h | h | h | h
                · rcases hmem0 e h with h | h | h | h | h | h | h
                  exacts [.inl h, .inr (.inl h), .inr (.inr (.inl h)),
                    .inr (.inr (.inr (.inl h))), .inr (.inr (.inr (.inr (.inl h)))),
                    .inr (.inr (.inr (.inr (.inr (.inl h))))),
                    .inr (.inr (.inr (.inr (.inr (.inr (.inl h))))))]
                · exact Or.inr (Or.inr (Or.inr (Or.inr (Or.inr (Or.inr
                    (Or.inr (Or.inl ⟨rfl, Or.inl h⟩)))))))
                · exact Or.inr (Or.inr (Or.inr (Or.inr (Or.inr (Or.inr
                    (Or.inr (Or.inl ⟨rfl, Or.inr h⟩)))))))
                · exact Or.inr (Or.inr (Or.inr (Or.inr (Or.inr (Or.inr
                    (Or.inr (Or.inr (Or.inl h))))))))
                · exact Or.inr (Or.inr (Or.inr (Or.inr (Or.inr (Or.inr
                    (Or.inr (Or.inr (Or.inr h))))))))
  refine ⟨?_, ?_, ?_, ?_⟩
  · intro hfull b rest hbr hfb
    have hw := ((phase1_spec env q).2.2.1 hfull b rest hbr).2 hfb
    unfold CommandQueue.queueSubmitLocked
    cases herr1 : (q.queueSubmitPhase1 env).err with
    | some e2 =>
        simp only [herr1]
        exact hw
    | none =>
        simp only [herr1]
        cases herr2 : (CommandQueue.queueSubmitPhase2 env
            (q.queueSubmitPhase1 env).st).err with
        | some e2 =>
            simp only [herr2]
            exact ⟨List.mem_append_left _ hw.1, List.mem_append_left _ hw.2⟩
        | none =>
            simp only [herr2]
            constructor
            · exact queueSubmitTail_keeps_e0 env _ siv batch qs _ _ _
                (List.mem_append_left _ hw.1)
            · exact queueSubmitTail_keeps_e0 env _ siv batch qs _ _ _
                (List.mem_append_left _ hw.2)
  · intro he
    rcases hshape _ he with h | h | h | h | h | h | h | h | h | h <;> simp_all
  · intro s
    constructor <;> intro he <;>
      (rcases hshape _ he with h | h | h | h | h | h | h | h | h | h <;> simp_all)
  · intro hsiv he
    rcases hshape _ he with h | h | h | h | h | h | h | h | h | h <;> simp_all
theorem queueSubmitLocked_st_mem (env : DeviceEnv) (q : CommandQueue) (siv : Bool)
    (batch : CommandBatch) (qs : QueueSerial)
    (hp : (q.queueSubmitLocked env siv batch qs).pushed = true) :
    (q.queueSubmitLocked env siv batch qs).st ∈
      (q.queueSubmitLocked env siv batch qs).states := by
  revert hp
  unfold CommandQueue.queueSubmitLocked
  cases herr1 : (q.queueSubmitPhase1 env).err with
  | some e => simp only [herr1]; intro hp; simp at hp
  | none =>
      simp only [herr1]
      cases herr2 : (CommandQueue.queueSubmitPhase2 env
          (q.queueSubmitPhase1 env).st).err with
      | some e => simp only [herr2]; intro hp; simp at hp
      | none =>
          simp only [herr2]
          intro hp
          have ht := queueSubmitTail_spec env
            (CommandQueue.queueSubmitPhase2 env (q.queueSubmitPhase1 env).st).st siv batch qs
            ((q.queueSubmitPhase1 env).states ++
              (CommandQueue.queueSubmitPhase2 env (q.queueSubmitPhase1 env).st).states)
            ((q.queueSubmitPhase1 env).events ++
              (CommandQueue.queueSubmitPhase2 env (q.queueSubmitPhase1 env).st).events)
            _ rfl
          obtain ⟨_, _, _, hstates⟩ := ht.1 hp
          rw [hstates]
          simp

/-- C1: in queueSubmitLocked the batch is pushed onto the in-flight ring
before mLastSubmittedSerials is advanced: in every state observable
during the run, if lastSubmitted already covers the freshly submitted
serial then the batch is present in the in-flight ring (or has migrated
to the finished ring). -/
theorem queueSubmitLocked_push_before_advance (env : DeviceEnv) (q : CommandQueue)
    (siv : Bool) (batch : CommandBatch) (qs : QueueSerial)
    (hfresh : SerialM.leB (.fin qs.serial) (q.mLastSubmittedSerials qs.index) = false)
    (hbatch : batch.mQueueSerial = qs) :
    ∀ s ∈ (q.queueSubmitLocked env siv batch qs).states,
      SerialM.leB (.fin qs.serial) (s.mLastSubmittedSerials qs.index) = true →
      (s.mInFlightCommands.any (fun b2 => b2.mQueueSerial == qs) ||
       s.mFinishedCommandBatches.any (fun b2 => b2.mQueueSerial == qs)) = true := by
  intro s hs hle
  rcases queueSubmitLocked_states env q siv batch qs s hs with h | h
  · rw [h, hfresh] at hle
    exact absurd hle (by simp)
  · rw [hbatch] at h
    simp [h]

/-- Witness for C1: the final state of a successful submission against
the idle sample queue sees the advanced serial and finds the batch. -/
theorem queueSubmitLocked_push_before_advance_witness :
    SerialM.leB (.fin 1)
      ((sampleQueue.queueSubmitLocked okEnv true sampleBatch1 ⟨0, 1⟩).st.mLastSubmittedSerials
        0) = true ∧
    (((sampleQueue.queueSubmitLocked okEnv true sampleBatch1
        ⟨0, 1⟩).st.mInFlightCommands.any
          (fun b2 => b2.mQueueSerial == (⟨0, 1⟩ : QueueSerial)) ||
      ((sampleQueue.queueSubmitLocked okEnv true sampleBatch1
        ⟨0, 1⟩).st.mFinishedCommandBatches.any
          (fun b2 => b2.mQueueSerial == (⟨0, 1⟩ : QueueSerial)))) = true) := by
  refine ⟨by decide, ?_⟩
  refine queueSubmitLocked_push_before_advance okEnv sampleQueue true sampleBatch1 ⟨0, 1⟩
    (by decide) (by decide) _ ?_ (by decide)
  exact queueSubmitLocked_st_mem okEnv sampleQueue true sampleBatch1 ⟨0, 1⟩ (by decide)
/-- C2 (amended): during submission with the in-flight ring full, the
complete lock is acquired while the submit lock is retained (never
released within queueSubmitLocked) and the oldest batch's fence is
waited on with the bounded timeout; when mNumAllCommands equals the
finished-ring capacity the release lock is acquired and the finished
batches are reclaimed; and right before the push the ring is not full
and mNumAllCommands is strictly below the finished-ring capacity. -/
theorem queueSubmitLocked_backpressure (env : DeviceEnv) (q : CommandQueue) (siv : Bool)
    (batch : CommandBatch) (qs : QueueSerial)
    (hsum : q.mNumAllCommands =
      q.mInFlightCommands.length + q.mFinishedCommandBatches.length)
    (hle : q.mNumAllCommands ≤ q.mFinishedCap)
    (hif : q.mInFlightCommands.length ≤ q.mInFlightCap)
    (hpos : 1 ≤ q.mInFlightCap)
    (hcap : q.mInFlightCap ≤ q.mFinishedCap) :
    (q.mInFlightCommands.length = q.mInFlightCap →
      ∀ b rest, q.mInFlightCommands = b :: rest → b.hasFenceB = true →
        QEvent.waitFence b.mQueueSerial env.maxFenceWaitTimeNs ∈
          (q.queueSubmitLocked env siv batch qs).events ∧
        QEvent.lockAcquire .completeL ∈ (q.queueSubmitLocked env siv batch qs).events) ∧
    (QEvent.lockRelease .submitL ∉ (q.queueSubmitLocked env siv batch qs).events) ∧
    (q.mNumAllCommands = q.mFinishedCap →
      (q.queueSubmitLocked env siv batch qs).pushed = true →
      QEvent.lockAcquire .releaseL ∈ (q.queueSubmitLocked env siv batch qs).events ∧
      (q.queueSubmitLocked env siv batch qs).prePush.mFinishedCommandBatches = []) ∧
    ((q.queueSubmitLocked env siv batch qs).pushed = true →
      (q.queueSubmitLocked env siv batch qs).prePush.mInFlightCommands.length <
        q.mInFlightCap ∧
      (q.queueSubmitLocked env siv batch qs).prePush.mNumAllCommands <
        q.mFinishedCap) := by
  have hev := queueSubmitLocked_events env q siv batch qs
  have hg := queueSubmitLocked_guarantees env q siv batch qs hsum hle hif hpos hcap
  refine ⟨hev.1, hev.2.1, hg.2, ?_⟩
  intro hp
  exact ⟨(hg.1 hp).1, (hg.1 hp).2.1⟩

/-- Witness for C2 (amended): a submission against a full one-slot ring. -/
theorem queueSubmitLocked_backpressure_witness :
    QEvent.waitFence ⟨0, 1⟩ okEnv.maxFenceWaitTimeNs ∈
      (fullQueue.queueSubmitLocked okEnv false sampleBatch2 ⟨0, 2⟩).events ∧
    QEvent.lockAcquire .completeL ∈
      (fullQueue.queueSubmitLocked okEnv false sampleBatch2 ⟨0, 2⟩).events ∧
    QEvent.lockRelease .submitL ∉
      (fullQueue.queueSubmitLocked okEnv false sampleBatch2 ⟨0, 2⟩).events ∧
    (fullQueue.queueSubmitLocked okEnv false sampleBatch2
      ⟨0, 2⟩).prePush.mInFlightCommands.length < fullQueue.mInFlightCap := by
  have h := queueSubmitLocked_backpressure okEnv fullQueue false sampleBatch2 ⟨0, 2⟩
    (by decide) (by decide) (by decide) (by decide) (by decide)
  have hw := h.1 (by decide) sampleBatch1 [] (by decide) (by decide)
  exact ⟨hw.1, hw.2, h.2.1, (h.2.2.2 (by decide)).1⟩

/-- C2 counterexample: the claim as stated says the submit lock is
dropped before the backpressure fence wait; in this concrete full-ring
submission the wait occurs but no release of the submit lock precedes
it (the submit lock is held throughout: the wait uses waitFence, not
waitFenceUnlocked). -/
theorem backpressure_submit_lock_not_dropped :
    containsWaitFence
      (fullQueue.submitCommands okEnv .Unprotected .Medium 0 none ⟨0, 2⟩).events = true ∧
    submitDroppedBeforeWait
      (fullQueue.submitCommands okEnv .Unprotected .Medium 0 none ⟨0, 2⟩).events = false := by
  decide
theorem queueSubmitLocked_deviceSubmit (env : DeviceEnv) (q : CommandQueue)
    (batch : CommandBatch) (qs : QueueSerial) (hok : env.allOk) :
    QEvent.deviceSubmit qs ∈ (q.queueSubmitLocked env true batch qs).events := by
  obtain ⟨ho1, ho2, ho3, ho4, ho5, ho6, ho7, ho8⟩ := hok
  have h1 : (q.queueSubmitPhase1 env).err = none :=
    (phase1_spec env q).2.2.2.2 ho6
  have h2 : (CommandQueue.queueSubmitPhase2 env (q.queueSubmitPhase1 env).st).err = none :=
    (phase2_spec env (q.queueSubmitPhase1 env).st).2.2.2.2 ho5
  unfold CommandQueue.queueSubmitLocked
  simp only [h1, h2]
  have ht := queueSubmitTail_spec env
    (CommandQueue.queueSubmitPhase2 env (q.queueSubmitPhase1 env).st).st true batch qs
    ((q.queueSubmitPhase1 env).states ++
      (CommandQueue.queueSubmitPhase2 env (q.queueSubmitPhase1 env).st).states)
    ((q.queueSubmitPhase1 env).events ++
      (CommandQueue.queueSubmitPhase2 env (q.queueSubmitPhase1 env).st).events)
    _ rfl
  exact (ht.2.2.2.2 rfl ho1).1
theorem queueSubmitLocked_pushed_shape (env : DeviceEnv) (q : CommandQueue) (siv : Bool)
    (batch : CommandBatch) (qs : QueueSerial)
    (hp : (q.queueSubmitLocked env siv batch qs).pushed = true) :
    (q.queueSubmitLocked env siv batch qs).st.mInFlightCommands =
      (q.queueSubmitLocked env siv batch qs).prePush.mInFlightCommands ++ [batch] ∧
    (q.queueSubmitLocked env siv batch qs).st.mLastSubmittedSerials =
      setSerialAt
        (q.queueSubmitLocked env siv batch qs).prePush.mLastSubmittedSerials qs := by
  revert hp
  unfold CommandQueue.queueSubmitLocked
  cases herr1 : (q.queueSubmitPhase1 env).err with
  | some e => simp only [herr1]; intro hp; simp at hp
  | none =>
      simp only [herr1]
      cases herr2 : (CommandQueue.queueSubmitPhase2 env
          (q.queueSubmitPhase1 env).st).err with
      | some e => simp only [herr2]; intro hp; simp at hp
      | none =>
          simp only [herr2]
          intro hp
          have ht := queueSubmitTail_spec env
            (CommandQueue.queueSubmitPhase2 env (q.queueSubmitPhase1 env).st).st siv batch qs
            ((q.queueSubmitPhase1 env).states ++
              (CommandQueue.queueSubmitPhase2 env (q.queueSubmitPhase1 env).st).states)
            ((q.queueSubmitPhase1 env).events ++
              (CommandQueue.queueSubmitPhase2 env (q.queueSubmitPhase1 env).st).events)
            _ rfl
          obtain ⟨hpre, hinf, hlast, _⟩ := ht.1 hp
          rw [hpre]
          exact ⟨hinf, hlast⟩
set_option maxHeartbeats 1000000
theorem queueSubmitLocked_noop_case (env : DeviceEnv) (q2 : CommandQueue)
    (batch : CommandBatch) (qs : QueueSerial) (hok : env.allOk)
    (hserial : batch.mQueueSerial = qs) (hfence : batch.hasFenceB = false) :
    (q2.queueSubmitLocked env false batch qs).pushed = true ∧
    (q2.queueSubmitLocked env false batch qs).st.mLastSubmittedSerials qs.index =
      .fin qs.serial ∧
    (∃ b ∈ (q2.queueSubmitLocked env false batch qs).st.mInFlightCommands,
      b.mQueueSerial = qs ∧ b.hasFenceB = false) := by
  have hpush := (queueSubmitLocked_allOk env q2 false batch qs hok).2
  have hshape := queueSubmitLocked_pushed_shape env q2 false batch qs hpush
  refine ⟨hpush, ?_, ?_⟩
  · rw [hshape.2]
    simp [setSerialAt]
  · rw [hshape.1]
    exact ⟨batch, List.mem_append_right _ (List.mem_singleton.mpr rfl), hserial, hfence⟩

/-- C4: submitCommands calls the device Submit exactly when the batch
has a valid primary buffer, a signal semaphore was supplied, an external
fence was supplied, or the accumulated wait-semaphore list is non-empty;
a submission meeting none of these still creates a batch, pushes it onto
the in-flight ring and advances lastSubmitted, but makes no device call
and acquires no fence. -/
theorem submitCommands_device_call_iff (env : DeviceEnv) (q : CommandQueue)
    (pt : ProtectionType) (prio : ContextPriority) (signalSemaphore : Nat)
    (externalFence : Option Nat) (qs : QueueSerial) (hok : env.allOk) :
    ((QEvent.deviceSubmit qs ∈
        (q.submitCommands env pt prio signalSemaphore externalFence qs).events) ↔
      ((q.mCommandPoolAccess.mCommandsStateMap prio pt).primaryValid ||
        signalSemaphore ≠ 0 || externalFence.isSome ||
        !(q.mCommandPoolAccess.mCommandsStateMap prio pt).waitSemaphores.isEmpty) = true) ∧
    (((q.mCommandPoolAccess.mCommandsStateMap prio pt).primaryValid ||
        signalSemaphore ≠ 0 || externalFence.isSome ||
        !(q.mCommandPoolAccess.mCommandsStateMap prio pt).waitSemaphores.isEmpty) = false →
      (q.submitCommands env pt prio signalSemaphore externalFence qs).pushed = true ∧
      (q.submitCommands env pt prio signalSemaphore externalFence
        qs).st.mLastSubmittedSerials qs.index = .fin qs.serial ∧
      (∃ b ∈ (q.submitCommands env pt prio signalSemaphore externalFence
          qs).st.mInFlightCommands, b.mQueueSerial = qs ∧ b.hasFenceB = false) ∧
      (∀ s, QEvent.initFenceEv s ∉
          (q.submitCommands env pt prio signalSemaphore externalFence qs).events ∧
        QEvent.setExternalFenceEv s ∉
          (q.submitCommands env pt prio signalSemaphore externalFence qs).events)) := by
  have hok2 : env.allOk := hok
  obtain ⟨ho1, ho2, ho3, ho4, ho5, ho6, ho7, ho8⟩ := hok
  refine ⟨⟨?_, ?_⟩, ?_⟩
  · intro hmem
    by_contra hx
    have hf : ((q.mCommandPoolAccess.mCommandsStateMap prio pt).primaryValid ||
        signalSemaphore ≠ 0 || externalFence.isSome ||
        !(q.mCommandPoolAccess.mCommandsStateMap prio pt).waitSemaphores.isEmpty) = false := by
      cases h2 : ((q.mCommandPoolAccess.mCommandsStateMap prio pt).primaryValid ||
          signalSemaphore ≠ 0 || externalFence.isSome ||
          !(q.mCommandPoolAccess.mCommandsStateMap prio pt).waitSemaphores.isEmpty)
      · rfl
      · exact absurd h2 hx
    revert hmem
    unfold CommandQueue.submitCommands CommandPoolAccess.getCommandsAndWaitSemaphores
    simp only [ho2, ho3, ne_eq, not_true_eq_false, decide_False, Bool.and_false,
      Bool.false_eq_true, if_false, CommandBatch.setPrimaryCommandsU,
      CommandBatch.setSecondaryCommandsU, CommandBatch.setQueueSerialU,
      CommandBatch.setProtectionTypeU]
    simp only [hf, Bool.false_eq_true, if_false]
    intro hmem
    rcases List.mem_cons.mp hmem with hmem | hmem
    · exact absurd hmem (by simp)
    · rcases List.mem_append.mp hmem with hmem | hmem
      · rcases List.mem_append.mp hmem with hmem | hmem
        · simp at hmem
        · exact (queueSubmitLocked_events env _ false _ qs).2.2.2 rfl hmem
      · revert hmem
        split
        · intro hmem; simp at hmem
        · intro hmem; simp at hmem
  · intro hneeds
    unfold CommandQueue.submitCommands CommandPoolAccess.getCommandsAndWaitSemaphores
    cases externalFence with
    | none =>
        simp only [ho2, ho3, ne_eq, not_true_eq_false, decide_False, Bool.and_false,
          Bool.false_eq_true, if_false, CommandBatch.setPrimaryCommandsU,
          CommandBatch.setSecondaryCommandsU, CommandBatch.setQueueSerialU,
          CommandBatch.setProtectionTypeU]
        simp only [hneeds]
        simp only [if_true]
        refine List.mem_cons_of_mem _ (List.mem_append_left _ ?_)
        refine List.mem_append_right _ ?_
        exact queueSubmitLocked_deviceSubmit env _ _ qs hok2
    | some fd =>
        simp only [ho2, ho3, ne_eq, not_true_eq_false, decide_False, Bool.and_false,
          Bool.false_eq_true, if_false, CommandBatch.setPrimaryCommandsU,
          CommandBatch.setSecondaryCommandsU, CommandBatch.setQueueSerialU,
          CommandBatch.setProtectionTypeU]
        simp only [hneeds]
        simp only [if_true]
        refine List.mem_cons_of_mem _ (List.mem_append_left _ ?_)
        refine List.mem_append_right _ ?_
        exact queueSubmitLocked_deviceSubmit env _ _ qs hok2
  · intro hf
    unfold CommandQueue.submitCommands CommandPoolAccess.getCommandsAndWaitSemaphores
    simp only [ho2, ho3, ne_eq, not_true_eq_false, decide_False, Bool.and_false,
      Bool.false_eq_true, if_false, CommandBatch.setPrimaryCommandsU,
      CommandBatch.setSecondaryCommandsU, CommandBatch.setQueueSerialU,
      CommandBatch.setProtectionTypeU]
    simp only [hf, Bool.false_eq_true, if_false]
    have hnoop := queueSubmitLocked_noop_case env
      { mInFlightCommands := q.mInFlightCommands, mInFlightCap := q.mInFlightCap,
        mFinishedCommandBatches := q.mFinishedCommandBatches,
        mFinishedCap := q.mFinishedCap, mNumAllCommands := q.mNumAllCommands,
        mLastSubmittedSerials := q.mLastSubmittedSerials,
        mLastCompletedSerials := q.mLastCompletedSerials,
        mCommandPoolAccess := q.mCommandPoolAccess.setState prio pt CommandsState.empty,
        mCommandQueueSubmitCalls := q.mCommandQueueSubmitCalls + 1,
        mVkQueueSubmitCalls := q.mVkQueueSubmitCalls }
      { mQueueSerial := qs, mProtectionType := pt,
        mHasPrimaryCommands := (q.mCommandPoolAccess.mCommandsStateMap prio pt).primaryValid,
        mHasCommandPoolAccess := true,
        mSecondaryCount := (q.mCommandPoolAccess.mCommandsStateMap prio pt).secondaryCount,
        mFence := CommandBatch.empty.mFence,
        mExternalFence := CommandBatch.empty.mExternalFence }
      qs hok2 rfl rfl
    refine ⟨hnoop.1, hnoop.2.1, hnoop.2.2, ?_⟩
    intro s
    refine ⟨?_, ?_⟩ <;> intro hmem
    · rcases List.mem_cons.mp hmem with hmem | hmem
      · simp at hmem
      · rcases List.mem_append.mp hmem with hmem | hmem
        · rcases List.mem_append.mp hmem with hmem | hmem
          · simp at hmem
          · exact absurd hmem (((queueSubmitLocked_events env _ false _ qs).2.2.1 s).1)
        · revert hmem
          split
          · intro hmem; simp at hmem
          · intro hmem; simp at hmem
    · rcases List.mem_cons.mp hmem with hmem | hmem
      · simp at hmem
      · rcases List.mem_append.mp hmem with hmem | hmem
        · rcases List.mem_append.mp hmem with hmem | hmem
          · simp at hmem
          · exact absurd hmem (((queueSubmitLocked_events env _ false _ qs).2.2.1 s).2)
        · revert hmem
          split
          · intro hmem; simp at hmem
          · intro hmem; simp at hmem
/-- Witness for C4: an empty submission (no primary, no semaphore, no
external fence, no waits) against the idle sample queue. -/
theorem submitCommands_device_call_iff_witness :
    ((QEvent.deviceSubmit ⟨0, 1⟩ ∈
        (sampleQueue.submitCommands okEnv .Unprotected .Medium 0 none ⟨0, 1⟩).events) ↔
      ((sampleQueue.mCommandPoolAccess.mCommandsStateMap .Medium .Unprotected).primaryValid ||
        (0 : Nat) ≠ 0 || (none : Option Nat).isSome ||
        !(sampleQueue.mCommandPoolAccess.mCommandsStateMap .Medium
            .Unprotected).waitSemaphores.isEmpty) = true) ∧
    (((sampleQueue.mCommandPoolAccess.mCommandsStateMap .Medium .Unprotected).primaryValid ||
        (0 : Nat) ≠ 0 || (none : Option Nat).isSome ||
        !(sampleQueue.mCommandPoolAccess.mCommandsStateMap .Medium
            .Unprotected).waitSemaphores.isEmpty) = false →
      (sampleQueue.submitCommands okEnv .Unprotected .Medium 0 none ⟨0, 1⟩).pushed = true ∧
      (sampleQueue.submitCommands okEnv .Unprotected .Medium 0 none
        ⟨0, 1⟩).st.mLastSubmittedSerials (0 : Nat) = .fin 1 ∧
      (∃ b ∈ (sampleQueue.submitCommands okEnv .Unprotected .Medium 0 none
          ⟨0, 1⟩).st.mInFlightCommands,
        b.mQueueSerial = ⟨0, 1⟩ ∧ b.hasFenceB = false) ∧
      (∀ s, QEvent.initFenceEv s ∉
          (sampleQueue.submitCommands okEnv .Unprotected .Medium 0 none ⟨0, 1⟩).events ∧
        QEvent.setExternalFenceEv s ∉
          (sampleQueue.submitCommands okEnv .Unprotected .Medium 0 none ⟨0, 1⟩).events)) :=
  submitCommands_device_call_iff okEnv sampleQueue .Unprotected .Medium 0 none ⟨0, 1⟩
    (by decide)

/-! ### C5: the submitted-wait drives the task queue from the calling thread -/

theorem submitCommands_allOk (env : DeviceEnv) (q : CommandQueue) (pt : ProtectionType)
    (prio : ContextPriority) (signalSemaphore : Nat) (externalFence : Option Nat)
    (qs : QueueSerial) (hok : env.allOk) :
    (q.submitCommands env pt prio signalSemaphore externalFence qs).err = none := by
  have hok2 : env.allOk := hok
  obtain ⟨ho1, ho2, ho3, ho4, ho5, ho6, ho7, ho8⟩ := hok
  unfold CommandQueue.submitCommands CommandPoolAccess.getCommandsAndWaitSemaphores
  simp only [ho2, ho3, ne_eq, not_true_eq_false, decide_False, Bool.and_false,
    Bool.false_eq_true, if_false, CommandBatch.setPrimaryCommandsU,
    CommandBatch.setSecondaryCommandsU, CommandBatch.setQueueSerialU,
    CommandBatch.setProtectionTypeU]
  by_cases hneeds : ((q.mCommandPoolAccess.mCommandsStateMap prio pt).primaryValid ||
      decide ¬signalSemaphore = 0 || externalFence.isSome ||
      !(q.mCommandPoolAccess.mCommandsStateMap prio pt).waitSemaphores.isEmpty) = true
  · simp only [hneeds, if_true]
    cases externalFence with
    | none =>
        simp only [if_true]
        exact (queueSubmitLocked_allOk env _ _ _ qs hok2).1
    | some fd =>
        simp only [if_true]
        exact (queueSubmitLocked_allOk env _ _ _ qs hok2).1
  · have hf : ((q.mCommandPoolAccess.mCommandsStateMap prio pt).primaryValid ||
        decide ¬signalSemaphore = 0 || externalFence.isSome ||
        !(q.mCommandPoolAccess.mCommandsStateMap prio pt).waitSemaphores.isEmpty) = false := by
      cases h2 : ((q.mCommandPoolAccess.mCommandsStateMap prio pt).primaryValid ||
          decide ¬signalSemaphore = 0 || externalFence.isSome ||
          !(q.mCommandPoolAccess.mCommandsStateMap prio pt).waitSemaphores.isEmpty)
      · rfl
      · exact absurd h2 hneeds
    simp only [hf, Bool.false_eq_true, if_false]
    exact (queueSubmitLocked_allOk env _ _ _ qs hok2).1

theorem queueSubmitOneOff_allOk (env : DeviceEnv) (q : CommandQueue)
    (pt : ProtectionType) (prio : ContextPriority) (cb ws wsm : Nat)
    (qs : QueueSerial) (hok : env.allOk) :
    (q.queueSubmitOneOff env pt prio cb ws wsm qs).err = none := by
  have hok2 : env.allOk := hok
  obtain ⟨ho1, ho2, ho3, ho4, ho5, ho6, ho7, ho8⟩ := hok
  unfold CommandQueue.queueSubmitOneOff
  simp only [ho2, ne_eq, not_true_eq_false, decide_False, Bool.false_eq_true, if_false,
    ite_false]
  exact (queueSubmitLocked_allOk env _ _ _ qs hok2).1

theorem flushOutsideRP_allOk (env : DeviceEnv) (q : CommandQueue) (pt : ProtectionType)
    (prio : ContextPriority) (hok : env.ensurePrimaryOk = true) :
    ∃ q1, CommandQueue.flushOutsideRPCommands env q pt prio = (none, q1) := by
  unfold CommandQueue.flushOutsideRPCommands CommandPoolAccess.flushOutsideRPCommands
    CommandPoolAccess.ensurePrimaryCommandBufferValidLocked
  by_cases hp : (q.mCommandPoolAccess.mCommandsStateMap prio pt).primaryValid = true
  · simp only [hp, if_true]
    exact ⟨_, rfl⟩
  · have hp2 : (q.mCommandPoolAccess.mCommandsStateMap prio pt).primaryValid = false := by
      cases h2 : (q.mCommandPoolAccess.mCommandsStateMap prio pt).primaryValid
      · rfl
      · exact absurd h2 hp
    simp only [hp2, Bool.false_eq_true, if_false, hok, if_true]
    exact ⟨_, rfl⟩

theorem flushRenderPass_allOk (env : DeviceEnv) (q : CommandQueue) (pt : ProtectionType)
    (prio : ContextPriority) (hok : env.ensurePrimaryOk = true) :
    ∃ q1, CommandQueue.flushRenderPassCommands env q pt prio = (none, q1) := by
  unfold CommandQueue.flushRenderPassCommands CommandPoolAccess.flushRenderPassCommands
  obtain ⟨q1, h⟩ := flushOutsideRP_allOk env q pt prio hok
  unfold CommandQueue.flushOutsideRPCommands at h
  refine ⟨q1, ?_⟩
  revert h
  match CommandPoolAccess.flushOutsideRPCommands env q.mCommandPoolAccess pt prio with
  | (e, pa1) => intro h; exact h
theorem processTask_allOk (n : Nat) (env : DeviceEnv) (w : CommandProcessor)
    (t : CommandProcessorTask) (hok : env.allOk) :
    ∃ w2 evs, CommandProcessor.processTask (n + 1) env w t = (.ok w2, evs) ∧
      w2.mTaskQueue = w.mTaskQueue ∧ w2.mErrors = w.mErrors := by
  have hok2 : env.allOk := hok
  obtain ⟨ho1, ho2, ho3, ho4, ho5, ho6, ho7, ho8⟩ := hok
  cases t with
  | flushAndQueueSubmit sig ext pt prio serial =>
      have he := submitCommands_allOk env w.mCommandQueue pt prio sig ext serial hok2
      simp only [CommandProcessor.processTask, he]
      exact ⟨_, _, rfl, rfl, rfl⟩
  | oneOffQueueSubmit cb pt prio ws wsm serial =>
      have he := queueSubmitOneOff_allOk env w.mCommandQueue pt prio cb ws wsm serial hok2
      simp only [CommandProcessor.processTask, he]
      exact ⟨_, _, rfl, rfl, rfl⟩
  | present prio statusId =>
      simp only [CommandProcessor.processTask, CommandProcessor.presentImpl,
        CommandQueue.queuePresent, ho8, ne_eq, not_true_eq_false, and_false,
        if_false, ite_false]
      exact ⟨_, _, rfl, rfl, rfl⟩
  | flushWaitSemaphores pt prio sems masks =>
      simp only [CommandProcessor.processTask]
      exact ⟨_, _, rfl, rfl, rfl⟩
  | processOutsideRenderPassCommands pt prio =>
      obtain ⟨q1, hfl⟩ := flushOutsideRP_allOk env w.mCommandQueue pt prio ho4
      simp only [CommandProcessor.processTask, hfl]
      exact ⟨_, _, rfl, rfl, rfl⟩
  | processRenderPassCommands pt prio =>
      obtain ⟨q1, hfl⟩ := flushRenderPass_allOk env w.mCommandQueue pt prio ho4
      simp only [CommandProcessor.processTask, hfl]
      exact ⟨_, _, rfl, rfl, rfl⟩
  | invalid =>
      simp only [CommandProcessor.processTask]
      exact ⟨_, _, rfl, rfl, rfl⟩
theorem driveLoop_spec (env : DeviceEnv) (use : ResourceUse) (f : Nat) (hok : env.allOk) :
    ∀ (n : Nat) (w : CommandProcessor),
      (∃ wfin,
        (CommandProcessor.driveLoop env use (f + 1) n w).1 = .ok wfin ∧
        wfin.mTaskQueue =
          w.mTaskQueue.drop (CommandProcessor.driveLoop env use (f + 1) n w).2.1 ∧
        wfin.mErrors = w.mErrors ∧
        ((CommandProcessor.driveLoop env use (f + 1) n w).2.1 < n →
          wfin.mCommandQueue.hasResourceUseSubmitted use = true ∨
          w.mTaskQueue.drop (CommandProcessor.driveLoop env use (f + 1) n w).2.1 = [])) ∧
      (CommandProcessor.driveLoop env use (f + 1) n w).2.1 ≤ n ∧
      (∀ wj ∈ (CommandProcessor.driveLoop env use (f + 1) n w).2.2.1,
        wj.mCommandQueue.hasResourceUseSubmitted use = false) := by
  intro n
  induction n with
  | zero =>
      intro w
      simp only [CommandProcessor.driveLoop]
      exact ⟨⟨w, rfl, rfl, rfl, fun h => absurd h (by omega)⟩, Nat.le_refl 0,
        fun wj hj => absurd hj (List.not_mem_nil wj)⟩
  | succ n ih =>
      intro w
      by_cases hsub : w.mCommandQueue.hasResourceUseSubmitted use = true
      · simp only [CommandProcessor.driveLoop, hsub, if_true]
        exact ⟨⟨w, rfl, rfl, rfl, fun _ => Or.inl hsub⟩, Nat.zero_le _,
          fun wj hj => absurd hj (List.not_mem_nil wj)⟩
      · have hsub2 : w.mCommandQueue.hasResourceUseSubmitted use = false := by
          cases h2 : w.mCommandQueue.hasResourceUseSubmitted use
          · rfl
          · exact absurd h2 hsub
        cases htq : w.mTaskQueue with
        | nil =>
            simp only [CommandProcessor.driveLoop, hsub2, Bool.false_eq_true, if_false,
              htq, List.drop_nil]
            exact ⟨⟨w, rfl, htq, rfl, fun _ => Or.inr trivial⟩, Nat.zero_le _,
              fun wj hj => absurd hj (List.not_mem_nil wj)⟩
        | cons t ts =>
            obtain ⟨w2, evs, hpt, htq2, herr2⟩ :=
              processTask_allOk f env { w with mTaskQueue := ts } t hok
            obtain ⟨⟨wfin, hfin1, hfin2, hfin3, hfin4⟩, hle, hpres⟩ := ih w2
            have htq2s : w2.mTaskQueue = ts := htq2
            have herr2s : w2.mErrors = w.mErrors := herr2
            simp only [CommandProcessor.driveLoop, hsub2, Bool.false_eq_true, if_false,
              htq, hpt, List.drop_succ_cons]
            refine ⟨⟨wfin, hfin1, ?_, ?_, ?_⟩, ?_, ?_⟩
            · rw [hfin2, htq2s]
            · rw [hfin3, herr2s]
            · intro hlt
              have hlt2 : (CommandProcessor.driveLoop env use (f + 1) n w2).2.1 < n := by
                omega
              rcases hfin4 hlt2 with h | h
              · exact Or.inl h
              · rw [htq2s] at h
                exact Or.inr h
            · omega
            · intro wj hj
              rcases List.mem_cons.mp hj with h | h
              · rw [h]; exact hsub2
              · exact hpres wj h
/-- C5: when the given resource use is not yet observed submitted,
CommandProcessor.waitForResourceUseToBeSubmitted pops tasks from the
task queue and executes them on the calling thread: it returns Continue,
executes at most as many tasks as the queue held at entry, stops with
the use observed submitted whenever it executed fewer than that, leaves
exactly the unexecuted tail of the queue, and the use was still
unsubmitted at every pop. -/
theorem waitForResourceUseToBeSubmitted_drives (f : Nat) (env : DeviceEnv)
    (w : CommandProcessor) (use : ResourceUse) (hok : env.allOk)
    (herr : w.mErrors = [])
    (hsub : w.mCommandQueue.hasResourceUseSubmitted use = false) :
    ∃ wfin,
      (CommandProcessor.waitForResourceUseToBeSubmitted (f + 1) env w use).1 = .ok wfin ∧
      (CommandProcessor.waitForResourceUseToBeSubmitted (f + 1) env w use).2.1 ≤
        w.mTaskQueue.length ∧
      ((CommandProcessor.waitForResourceUseToBeSubmitted (f + 1) env w use).2.1 <
          w.mTaskQueue.length →
        wfin.mCommandQueue.hasResourceUseSubmitted use = true) ∧
      wfin.mTaskQueue = w.mTaskQueue.drop
        (CommandProcessor.waitForResourceUseToBeSubmitted (f + 1) env w use).2.1 ∧
      wfin.mErrors = [] ∧
      (∀ wj ∈ (CommandProcessor.waitForResourceUseToBeSubmitted (f + 1) env w use).2.2.1,
        wj.mCommandQueue.hasResourceUseSubmitted use = false) := by
  obtain ⟨⟨wfin, hfin1, hfin2, hfin3, hfin4⟩, hle, hpres⟩ :=
    driveLoop_spec env use f hok w.mTaskQueue.length { w with mErrors := [] }
  simp only [CommandProcessor.waitForResourceUseToBeSubmitted, hsub, Bool.false_eq_true,
    if_false, herr, checkAndPopPendingError, List.isEmpty_nil, if_true, ite_true]
  refine ⟨wfin, hfin1, hle, ?_, hfin2, hfin3, hpres⟩
  intro hlt
  rcases hfin4 hlt with h | h
  · exact h
  · exfalso
    have hlen : w.mTaskQueue.length ≤
        (CommandProcessor.driveLoop env use (f + 1) w.mTaskQueue.length
          { w with mErrors := [] }).2.1 := by
      have h2 : ({ w with mErrors := [] } : CommandProcessor).mTaskQueue.length ≤
          (CommandProcessor.driveLoop env use (f + 1) w.mTaskQueue.length
            { w with mErrors := [] }).2.1 := List.drop_eq_nil_iff.mp h
      exact h2
    omega

theorem waitForResourceUseToBeSubmitted_drives_witness :
    (CommandProcessor.waitForResourceUseToBeSubmitted (0 + 1) okEnv
      { sampleProcessor with mTaskQueue :=
        [CommandProcessorTask.flushAndQueueSubmit 0 none ProtectionType.Unprotected
          ContextPriority.Medium ⟨0, 7⟩,
         CommandProcessorTask.flushWaitSemaphores ProtectionType.Unprotected
          ContextPriority.Medium [] []] } [⟨0, 7⟩]).2.1 = 1 ∧
    ∃ wfin,
      (CommandProcessor.waitForResourceUseToBeSubmitted (0 + 1) okEnv
        { sampleProcessor with mTaskQueue :=
          [CommandProcessorTask.flushAndQueueSubmit 0 none ProtectionType.Unprotected
            ContextPriority.Medium ⟨0, 7⟩,
           CommandProcessorTask.flushWaitSemaphores ProtectionType.Unprotected
            ContextPriority.Medium [] []] } [⟨0, 7⟩]).1 = .ok wfin ∧
      wfin.mCommandQueue.hasResourceUseSubmitted [⟨0, 7⟩] = true := by
  obtain ⟨wfin, h1, h2, h3, h4, h5, h6⟩ :=
    waitForResourceUseToBeSubmitted_drives 0 okEnv
      { sampleProcessor with mTaskQueue :=
        [CommandProcessorTask.flushAndQueueSubmit 0 none ProtectionType.Unprotected
          ContextPriority.Medium ⟨0, 7⟩,
         CommandProcessorTask.flushWaitSemaphores ProtectionType.Unprotected
          ContextPriority.Medium [] []] } [⟨0, 7⟩] (by decide) rfl (by decide)
  exact ⟨by decide, wfin, h1, h3 (by decide)⟩
